import Mathlib

/-!
Verification of the charon IR core: the discriminant-to-match normalization
pass (`src/transform/remove_read_discriminant.rs`), the crate-assembly file
table (`src/export.rs`), and the trait-witness ordering (`src/types.rs`).

The statement language (`llbc_ast`), span metadata (`meta.rs`), scalar
values (`values.rs`) and the translation context (`translate_ctx.rs`) are
not part of the provided sources; those carriers are modelled from the spec
(section 3 and 4.2) and from how the provided pass destructures them, and
each such definition is marked `Modelled from the spec`. All pass logic
(`update_statement`, the visitor, the export assembly, the ordering) is
translated directly from the provided sources.
-/

namespace Charon

/-- Modelled from the spec: source-span metadata attached to every statement
(`meta.rs` is not among the sources; the spec only requires that statement
sequencing be diagnostic-span-preserving). A `Meta` is a source span. -/
structure Meta where
  beg : Nat
  fin : Nat
deriving DecidableEq

/-- Modelled from the spec: `combine_meta` combines two spans into the
enclosing span (the diagnostic-span-preserving combination used when the
rewritten match is re-sequenced with the trailing statement). -/
def combine_meta (m1 m2 : Meta) : Meta :=
  { beg := min m1.beg m2.beg, fin := max m1.fin m2.fin }

/-- Integer types, from `types.rs` (`IntegerTy`). -/
inductive IntegerTy where
  | Isize
  | I8
  | I16
  | I32
  | I64
  | I128
  | Usize
  | U8
  | U16
  | U32
  | U64
  | U128
deriving DecidableEq

/-- Modelled from the spec: a scalar value of a concrete integer type
(`values.rs` is not among the sources). Signed values are integers in
two's-complement range, unsigned values are naturals. -/
inductive ScalarValue where
  | Isize (v : Int)
  | I8 (v : Int)
  | I16 (v : Int)
  | I32 (v : Int)
  | I64 (v : Int)
  | I128 (v : Int)
  | Usize (v : Nat)
  | U8 (v : Nat)
  | U16 (v : Nat)
  | U32 (v : Nat)
  | U64 (v : Nat)
  | U128 (v : Nat)
deriving DecidableEq

/-- Modelled from the spec: `ScalarValue::to_bits` returns the unsigned bit
pattern of the value at its width ("Discriminants are unsigned bit patterns
of arbitrary-width signed integer types reinterpreted as unsigned").
A signed value is reduced modulo `2 ^ width`, yielding its two's-complement
bit pattern; pointer-sized values are modelled at 64 bits. -/
def ScalarValue.to_bits : ScalarValue → Nat
  | .Isize v => (v % (2 : Int) ^ 64).toNat
  | .I8 v => (v % (2 : Int) ^ 8).toNat
  | .I16 v => (v % (2 : Int) ^ 16).toNat
  | .I32 v => (v % (2 : Int) ^ 32).toNat
  | .I64 v => (v % (2 : Int) ^ 64).toNat
  | .I128 v => (v % (2 : Int) ^ 128).toNat
  | .Usize v => v % 2 ^ 64
  | .U8 v => v % 2 ^ 8
  | .U16 v => v % 2 ^ 16
  | .U32 v => v % 2 ^ 32
  | .U64 v => v % 2 ^ 64
  | .U128 v => v % 2 ^ 128

/-- Modelled from the spec: a projection element of a place (`expressions.rs`
is not among the sources; the pass only ever tests projections for
emptiness). -/
inductive ProjectionElem where
  | Deref
  | DerefBox
  | Field (fid : Nat)
deriving DecidableEq

/-- Modelled from the spec: a place is a local variable with a projection
path. The pass reads `var_id` and tests `projection` for emptiness. -/
structure Place where
  var_id : Nat
  projection : List ProjectionElem
deriving DecidableEq

/-- Modelled from the spec: an operand (`expressions.rs` is not among the
sources). The pass requires the switch scrutinee to be a by-move read. -/
inductive Operand where
  | Copy (p : Place)
  | Move (p : Place)
  | Const (v : ScalarValue)
deriving DecidableEq

/-- Modelled from the spec: right-hand sides of assignments. The pass only
distinguishes `Discriminant(place, adt_id)` from everything else; other
rvalue shapes are represented by `Use` and `Global`. -/
inductive Rvalue where
  | Use (op : Operand)
  | Discriminant (p : Place) (adt_id : Nat)
  | Global (gid : Nat)
deriving DecidableEq

/-- Field of a struct or enum variant, from `types.rs` (`Field`; the `ty`
field is not consulted by the verified components and is elided). -/
structure Field where
  meta : Meta
  name : Option String
deriving DecidableEq

/-- Variant of an enum, from `types.rs` (`Variant`). The `discriminant` is
the runtime discriminant as a 128-bit unsigned bit pattern (`u128`),
used by `remove_read_discriminant` to match `SwitchInt` targets. -/
structure Variant where
  meta : Meta
  name : String
  fields : List Field
  discriminant : Nat
deriving DecidableEq

/-- Kind of a type declaration, from `types.rs` (`TypeDeclKind`). -/
inductive TypeDeclKind where
  | Struct (fields : List Field)
  | Enum (variants : List Variant)
  | Opaque
  | Error (msg : String)
deriving DecidableEq

/-- A type declaration, from `types.rs` (`TypeDecl`); the name/generics/
predicate fields are not consulted by the verified components and are
elided. -/
structure TypeDecl where
  def_id : Nat
  kind : TypeDeclKind
deriving DecidableEq

/-- Modelled from the spec: the translation context (`translate_ctx.rs` is
not among the sources). It carries the type-declaration table, the shared
error counter, and the file-id-to-filename map used at crate assembly. -/
structure TransCtx where
  type_decls : List TypeDecl
  error_count : Nat
  id_to_file : List (Nat × String)
deriving DecidableEq

/-- Modelled from the spec: `register_error_or_panic!` in error-tolerant
mode registers a local error, incrementing the shared error counter, and
lets translation continue. -/
def registerError (ctx : TransCtx) : TransCtx :=
  { ctx with error_count := ctx.error_count + 1 }

/-- Lookup in the type-declaration table (`ctx.type_decls.get(adt_id)`);
identifiers are dense indices. -/
def typeDeclsGet (ctx : TransCtx) (adt_id : Nat) : Option TypeDecl :=
  ctx.type_decls.get? adt_id

mutual

/-- Modelled from the spec: a structured (LLBC) statement: span metadata
plus content (`llbc_ast.rs` is not among the sources). -/
inductive Statement where
  | mk (meta : Meta) (content : RawStatement)

/-- Modelled from the spec: statement content. Besides the shapes the pass
destructures (`Assign`, `Sequence`, `Switch`, `Nop`), the statement
language has leaf statements and `Loop`. -/
inductive RawStatement where
  | Assign (dest : Place) (rv : Rvalue)
  | FakeRead (p : Place)
  | SetDiscriminant (p : Place) (variant_id : Nat)
  | Drop (p : Place)
  | Panic
  | Return
  | Break (n : Nat)
  | Continue (n : Nat)
  | Nop
  | Sequence (s1 s2 : Statement)
  | Switch (sw : Switch)
  | Loop (body : Statement)

/-- Modelled from the spec: the three switch shapes. `SwitchInt` carries raw
integer case values per arm plus an otherwise branch; `Match` carries
variant ids per arm and an optional otherwise branch. -/
inductive Switch where
  | If (op : Operand) (s1 s2 : Statement)
  | SwitchInt (op : Operand) (int_ty : IntegerTy)
      (targets : List (List ScalarValue × Statement)) (otherwise : Statement)
  | Match (scrut : Place) (targets : List (List Nat × Statement))
      (otherwise : Option Statement)

end

/-- Span of a statement. -/
def Statement.meta : Statement → Meta
  | .mk m _ => m

/-- Content of a statement. -/
def Statement.content : Statement → RawStatement
  | .mk _ c => c

mutual

/-- Number of statement nodes in a statement (payloads ignored). -/
def stSize : Statement → Nat
  | .mk _ c => rsSize c + 1

/-- Number of statement nodes in statement content. -/
def rsSize : RawStatement → Nat
  | .Assign _ _ => 1
  | .FakeRead _ => 1
  | .SetDiscriminant _ _ => 1
  | .Drop _ => 1
  | .Panic => 1
  | .Return => 1
  | .Break _ => 1
  | .Continue _ => 1
  | .Nop => 1
  | .Sequence s1 s2 => stSize s1 + stSize s2 + 1
  | .Switch sw => swSize sw + 1
  | .Loop body => stSize body + 1

/-- Number of statement nodes in a switch. -/
def swSize : Switch → Nat
  | .If _ s1 s2 => stSize s1 + stSize s2 + 1
  | .SwitchInt _ _ ts oth => brSizeS ts + stSize oth + 1
  | .Match _ ts oth => brSizeN ts + optSize oth + 1

/-- Number of statement nodes in integer-switch arms. -/
def brSizeS : List (List ScalarValue × Statement) → Nat
  | [] => 0
  | (_, s) :: t => stSize s + brSizeS t + 1

/-- Number of statement nodes in match arms. -/
def brSizeN : List (List Nat × Statement) → Nat
  | [] => 0
  | (_, s) :: t => stSize s + brSizeN t + 1

/-- Number of statement nodes in an optional statement. -/
def optSize : Option Statement → Nat
  | none => 0
  | some s => stSize s

end

mutual

/-- Asserts that a statement contains no `Discriminant` rvalue. -/
def stNoDiscr : Statement → Bool
  | .mk _ c => rsNoDiscr c

/-- Asserts that statement content contains no `Discriminant` rvalue. -/
def rsNoDiscr : RawStatement → Bool
  | .Assign _ rv =>
    match rv with
    | .Discriminant _ _ => false
    | _ => true
  | .Sequence s1 s2 => stNoDiscr s1 && stNoDiscr s2
  | .Switch sw => swNoDiscr sw
  | .Loop body => stNoDiscr body
  | _ => true

/-- Asserts that a switch contains no `Discriminant` rvalue. -/
def swNoDiscr : Switch → Bool
  | .If _ s1 s2 => stNoDiscr s1 && stNoDiscr s2
  | .SwitchInt _ _ ts oth => brNoDiscrS ts && stNoDiscr oth
  | .Match _ ts oth => brNoDiscrN ts && optNoDiscr oth

/-- Asserts that integer-switch arms contain no `Discriminant` rvalue. -/
def brNoDiscrS : List (List ScalarValue × Statement) → Bool
  | [] => true
  | (_, s) :: t => stNoDiscr s && brNoDiscrS t

/-- Asserts that match arms contain no `Discriminant` rvalue. -/
def brNoDiscrN : List (List Nat × Statement) → Bool
  | [] => true
  | (_, s) :: t => stNoDiscr s && brNoDiscrN t

/-- Asserts that an optional statement contains no `Discriminant` rvalue. -/
def optNoDiscr : Option Statement → Bool
  | none => true
  | some s => stNoDiscr s

end

/-- The discriminant-to-variant-id mapping (`discr_to_id` in
`update_statement`): built by inserting `(variant.discriminant, id)` for
every variant in index order into a hash map, so for duplicate
discriminants the later variant wins. -/
def discrToId (variants : List Variant) : Nat → Option Nat := fun d =>
  (variants.enum.reverse.find? (fun iv => iv.2.discriminant == d)).map Prod.fst

/-- Size of the `discr_to_id` map: the number of distinct stored
discriminant values. -/
def numDistinctDiscrs (variants : List Variant) : Nat :=
  ((variants.map (fun v => v.discriminant)).toFinset).card

/-- Conversion of one arm's case values (the `filter_map` in
`update_statement`): each raw value's bit pattern is inserted into the
covered set, then looked up in `discr_to_id`; a missing value registers an
error and is dropped from the arm. -/
def convertValues (dti : Nat → Option Nat) (ctx : TransCtx) (cov : Finset Nat) :
    List ScalarValue → TransCtx × Finset Nat × List Nat
  | [] => (ctx, cov, [])
  | x :: xs =>
    let d := ScalarValue.to_bits x
    match dti d with
    | some id =>
      let r := convertValues dti ctx (insert d cov) xs
      (r.1, r.2.1, id :: r.2.2)
    | none => convertValues dti (registerError ctx) (insert d cov) xs

/-- Conversion of all switch arms in order, threading the context (error
counter) and the covered-value set. -/
def convertTargets (dti : Nat → Option Nat) (ctx : TransCtx) (cov : Finset Nat) :
    List (List ScalarValue × Statement) →
      TransCtx × Finset Nat × List (List Nat × Statement)
  | [] => (ctx, cov, [])
  | (vs, e) :: t =>
    let r1 := convertValues dti ctx cov vs
    let r2 := convertTargets dti r1.1 r1.2.1 t
    (r2.1, r2.2.1, (r1.2.2, e) :: r2.2.2)

/-- The successful rewrite of `update_statement` (lines 105-151): convert
the arms, drop the otherwise branch when the covered set has the same size
as `discr_to_id`, target the original enum place, and re-attach the
trailing statement (if any) with a combined span. -/
def rewriteSwitch (ctx : TransCtx) (m m1 m2 : Meta) (p : Place)
    (variants : List Variant) (targets : List (List ScalarValue × Statement))
    (oth : Statement) (st3opt : Option Statement) : TransCtx × Statement :=
  let r := convertTargets (discrToId variants) ctx ∅ targets
  let covers_all : Bool := r.2.1.card = numDistinctDiscrs variants
  let oth' : Option Statement := if covers_all then none else some oth
  let sw : RawStatement := .Switch (.Match p r.2.2 oth')
  match st3opt with
  | some st3 => (r.1, .mk m (.Sequence (.mk (combine_meta m1 m2) sw) st3))
  | none => (r.1, .mk m sw)

/-- The scrutinee checks of `update_statement` (lines 70-103): the switch
operand must be a by-move, projection-free read of the discriminant
temporary (otherwise the pass panics, modelled as `none`); then the type
declaration is resolved: a struct or opaque declaration registers an error
and nops the occurrence, an error placeholder or a missing declaration
asserts that an earlier error was registered (panicking otherwise) and nops
the occurrence, and an enum proceeds to the rewrite. -/
def updateSwitch (ctx : TransCtx) (m m1 m2 : Meta) (dest p : Place)
    (adt_id : Nat) (op : Operand) (targets : List (List ScalarValue × Statement))
    (oth : Statement) (st3opt : Option Statement) : Option (TransCtx × Statement) :=
  match op with
  | .Move op_p =>
    if op_p.projection = [] ∧ op_p.var_id = dest.var_id then
      match typeDeclsGet ctx adt_id with
      | none =>
        if ctx.error_count ≠ 0 then some (ctx, .mk m .Nop) else none
      | some d =>
        match d.kind with
        | .Struct _ => some (registerError ctx, .mk m .Nop)
        | .Opaque => some (registerError ctx, .mk m .Nop)
        | .Error _ =>
          if ctx.error_count ≠ 0 then some (ctx, .mk m .Nop) else none
        | .Enum variants =>
          some (rewriteSwitch ctx m m1 m2 p variants targets oth st3opt)
    else none
  | _ => none

/-- The successor-shape analysis of `update_statement` (lines 40-68): the
statement following the discriminant read must be an integer switch,
directly or through one level of sequencing; any other successor shape
registers an error and nops the whole occurrence. -/
def updateSeq (ctx : TransCtx) (m m1 : Meta) (dest p : Place) (adt_id : Nat)
    (st2 : Statement) : Option (TransCtx × Statement) :=
  match st2 with
  | .mk _ (.Sequence (.mk m2 (.Switch (.SwitchInt op _ targets oth))) st3) =>
    updateSwitch ctx m m1 m2 dest p adt_id op targets oth (some st3)
  | .mk m2 (.Switch (.SwitchInt op _ targets oth)) =>
    updateSwitch ctx m m1 m2 dest p adt_id op targets oth none
  | _ => some (registerError ctx, .mk m .Nop)

/-- `Visitor::update_statement` from `remove_read_discriminant.rs`: a
statement sequence headed by a discriminant read is rewritten (the
destination must be a bare variable, `assert!` modelled as `none`); a bare
discriminant assignment is `unreachable!()` (modelled as `none`); every
other statement is left unchanged. -/
def update_statement (ctx : TransCtx) (st : Statement) :
    Option (TransCtx × Statement) :=
  match st with
  | .mk m (.Sequence (.mk m1 (.Assign dest (.Discriminant p adt_id))) st2) =>
    if dest.projection = [] then updateSeq ctx m m1 dest p adt_id st2 else none
  | .mk _ (.Assign _ (.Discriminant _ _)) => none
  | _ => some (ctx, st)

/-- Arm conversion preserves the branch statements, hence their total
statement count. -/
theorem convertTargets_brSize (dti : Nat → Option Nat)
    (l : List (List ScalarValue × Statement)) :
    ∀ (ctx : TransCtx) (cov : Finset Nat),
      brSizeN (convertTargets dti ctx cov l).2.2 = brSizeS l := by
  induction l with
  | nil => intro ctx cov; rfl
  | cons a t ih =>
    intro ctx cov
    obtain ⟨vs, e⟩ := a
    simp only [convertTargets, brSizeN, brSizeS]
    rw [ih]

/-- The statement produced by a successful rewrite is bounded by the
statement count of its input pieces. -/
theorem rewriteSwitch_size (ctx : TransCtx) (m m1 m2 : Meta) (p : Place)
    (variants : List Variant) (targets : List (List ScalarValue × Statement))
    (oth : Statement) (st3opt : Option Statement) :
    stSize (rewriteSwitch ctx m m1 m2 p variants targets oth st3opt).2 ≤
      brSizeS targets + stSize oth + optSize st3opt + 5 := by
  have hbr := convertTargets_brSize (discrToId variants) targets ctx ∅
  cases st3opt with
  | some st3 =>
    simp only [rewriteSwitch, stSize, rsSize, swSize, optSize, hbr]
    split
    · simp only [optSize]; omega
    · simp only [optSize]; omega
  | none =>
    simp only [rewriteSwitch, stSize, rsSize, swSize, optSize, hbr]
    split
    · simp only [optSize]; omega
    · simp only [optSize]; omega

/-- The statement produced by `updateSwitch` is bounded by the statement
count of its input pieces. -/
theorem updateSwitch_size {ctx : TransCtx} {m m1 m2 : Meta} {dest p : Place}
    {adt_id : Nat} {op : Operand} {targets : List (List ScalarValue × Statement)}
    {oth : Statement} {st3opt : Option Statement} {ctx1 : TransCtx} {st1 : Statement}
    (h : updateSwitch ctx m m1 m2 dest p adt_id op targets oth st3opt =
      some (ctx1, st1)) :
    stSize st1 ≤ brSizeS targets + stSize oth + optSize st3opt + 5 := by
  unfold updateSwitch at h
  split at h
  · split at h
    · split at h
      · split at h
        · cases h; simp only [stSize, rsSize]; omega
        · cases h
      · split at h
        · cases h; simp only [stSize, rsSize]; omega
        · cases h; simp only [stSize, rsSize]; omega
        · split at h
          · cases h; simp only [stSize, rsSize]; omega
          · cases h
        · rename_i variants _
          have hs := rewriteSwitch_size ctx m m1 m2 p variants targets oth st3opt
          injection h with h
          rw [h] at hs
          simpa using hs
    · cases h
  · cases h

/-- `update_statement` never increases the statement count. -/
theorem update_size_le {ctx : TransCtx} {st : Statement} {ctx1 : TransCtx}
    {st1 : Statement} (h : update_statement ctx st = some (ctx1, st1)) :
    stSize st1 ≤ stSize st := by
  unfold update_statement at h
  split at h
  · rename_i m m1 dest p adt_id st2
    split at h
    · unfold updateSeq at h
      split at h
      · rename_i mS m2 op targets oth st3
        have := updateSwitch_size h
        simp only [stSize, rsSize, swSize, optSize] at this ⊢
        omega
      · rename_i m2 op targets oth
        have := updateSwitch_size h
        simp only [stSize, rsSize, swSize, optSize] at this ⊢
        omega
      · cases h
        simp only [stSize, rsSize]
        omega
    · cases h
  · cases h
  · cases h
    exact le_refl _

mutual

/-- `MutAstVisitor::visit_statement` from `remove_read_discriminant.rs`:
apply `update_statement`, then visit the children of the (possibly
rewritten) statement to transform branches, the next statement and all
sub-statements. Panics propagate as `none`. -/
def visit (ctx : TransCtx) (st : Statement) : Option (TransCtx × Statement) :=
  match h : update_statement ctx st with
  | none => none
  | some (ctx1, st1) => visitChildren ctx1 st1
termination_by 2 * stSize st + 1
decreasing_by
  have := update_size_le h
  omega

/-- The default statement visitor: recursively visit every sub-statement
of a statement (both halves of a sequence, all switch branches and the
otherwise branch, the loop body), rebuilding the statement. -/
def visitChildren (ctx : TransCtx) (st : Statement) : Option (TransCtx × Statement) :=
  match st with
  | .mk m (.Sequence s1 s2) =>
    match visit ctx s1 with
    | none => none
    | some (c1, s1') =>
      match visit c1 s2 with
      | none => none
      | some (c2, s2') => some (c2, .mk m (.Sequence s1' s2'))
  | .mk m (.Switch (.If op a b)) =>
    match visit ctx a with
    | none => none
    | some (c1, a') =>
      match visit c1 b with
      | none => none
      | some (c2, b') => some (c2, .mk m (.Switch (.If op a' b')))
  | .mk m (.Switch (.SwitchInt op ity ts oth)) =>
    match visitBranchesS ctx ts with
    | none => none
    | some (c1, ts') =>
      match visit c1 oth with
      | none => none
      | some (c2, oth') => some (c2, .mk m (.Switch (.SwitchInt op ity ts' oth')))
  | .mk m (.Switch (.Match pl ts none)) =>
    match visitBranchesN ctx ts with
    | none => none
    | some (c1, ts') => some (c1, .mk m (.Switch (.Match pl ts' none)))
  | .mk m (.Switch (.Match pl ts (some o))) =>
    match visitBranchesN ctx ts with
    | none => none
    | some (c1, ts') =>
      match visit c1 o with
      | none => none
      | some (c2, o') => some (c2, .mk m (.Switch (.Match pl ts' (some o'))))
  | .mk m (.Loop body) =>
    match visit ctx body with
    | none => none
    | some (c1, body') => some (c1, .mk m (.Loop body'))
  | _ => some (ctx, st)
termination_by 2 * stSize st
decreasing_by
  all_goals simp only [stSize, rsSize, swSize, optSize]
  all_goals omega

/-- Visit every branch of an integer switch in order. -/
def visitBranchesS (ctx : TransCtx) :
    List (List ScalarValue × Statement) →
      Option (TransCtx × List (List ScalarValue × Statement))
  | [] => some (ctx, [])
  | (vs, e) :: t =>
    match visit ctx e with
    | none => none
    | some (c1, e') =>
      match visitBranchesS c1 t with
      | none => none
      | some (c2, t') => some (c2, (vs, e') :: t')
termination_by l => 2 * brSizeS l + 1
decreasing_by
  all_goals simp only [stSize, rsSize, swSize, brSizeS]
  all_goals omega

/-- Visit every branch of a match in order. -/
def visitBranchesN (ctx : TransCtx) :
    List (List Nat × Statement) →
      Option (TransCtx × List (List Nat × Statement))
  | [] => some (ctx, [])
  | (vs, e) :: t =>
    match visit ctx e with
    | none => none
    | some (c1, e') =>
      match visitBranchesN c1 t with
      | none => none
      | some (c2, t') => some (c2, (vs, e') :: t')
termination_by l => 2 * brSizeN l + 1
decreasing_by
  all_goals simp only [stSize, rsSize, swSize, brSizeN]
  all_goals omega

end

/-- Asserts that the top-level content of a statement is not a bare
discriminant assignment. -/
def notTopDiscr : Statement → Bool
  | .mk _ (.Assign _ (.Discriminant _ _)) => false
  | _ => true

/-- Unfolding of `visit` when `update_statement` panics. -/
theorem visit_none {ctx : TransCtx} {st : Statement}
    (h : update_statement ctx st = none) : visit ctx st = none := by
  rw [visit.eq_def, h]

/-- Unfolding of `visit` when `update_statement` succeeds. -/
theorem visit_some {ctx : TransCtx} {st : Statement} {ctx1 : TransCtx}
    {st1 : Statement} (h : update_statement ctx st = some (ctx1, st1)) :
    visit ctx st = visitChildren ctx1 st1 := by
  rw [visit.eq_def, h]

/-- On a statement with no discriminant rvalue, `update_statement` is the
identity. -/
theorem update_noDiscr {ctx : TransCtx} {st : Statement}
    (h : stNoDiscr st = true) : update_statement ctx st = some (ctx, st) := by
  obtain ⟨m, c⟩ := st
  cases c with
  | Assign dest rv =>
    cases rv with
    | Discriminant p a => simp [stNoDiscr, rsNoDiscr] at h
    | Use op => rfl
    | Global g => rfl
  | Sequence s1 s2 =>
    obtain ⟨m1, c1⟩ := s1
    cases c1 with
    | Assign dest rv =>
      cases rv with
      | Discriminant p a => simp [stNoDiscr, rsNoDiscr] at h
      | Use op => rfl
      | Global g => rfl
    | FakeRead p => rfl
    | SetDiscriminant p v => rfl
    | Drop p => rfl
    | Panic => rfl
    | Return => rfl
    | Break n => rfl
    | Continue n => rfl
    | Nop => rfl
    | Sequence a b => rfl
    | Switch sw => rfl
    | Loop body => rfl
  | FakeRead p => rfl
  | SetDiscriminant p v => rfl
  | Drop p => rfl
  | Panic => rfl
  | Return => rfl
  | Break n => rfl
  | Continue n => rfl
  | Nop => rfl
  | Switch sw => rfl
  | Loop body => rfl

/-- The statement produced by a successful rewrite is a match or a
sequence, never a bare discriminant assignment. -/
theorem rewriteSwitch_notTop (ctx : TransCtx) (m m1 m2 : Meta) (p : Place)
    (variants : List Variant) (targets : List (List ScalarValue × Statement))
    (oth : Statement) (st3opt : Option Statement) :
    notTopDiscr (rewriteSwitch ctx m m1 m2 p variants targets oth st3opt).2 = true := by
  cases st3opt <;> rfl

/-- The statement produced by `update_statement` is never a bare
discriminant assignment. -/
theorem update_notTopDiscr {ctx : TransCtx} {st : Statement} {ctx1 : TransCtx}
    {st1 : Statement} (h : update_statement ctx st = some (ctx1, st1)) :
    notTopDiscr st1 = true := by
  unfold update_statement at h
  split at h
  · split at h
    · unfold updateSeq at h
      split at h
      · unfold updateSwitch at h
        split at h
        · split at h
          · split at h
            · split at h
              · cases h; rfl
              · cases h
            · split at h
              · cases h; rfl
              · cases h; rfl
              · split at h
                · cases h; rfl
                · cases h
              · rename_i variants _
                injection h with h
                rw [Prod.ext_iff] at h
                show notTopDiscr (ctx1, st1).2 = true
                rw [← h.2]
                exact rewriteSwitch_notTop _ _ _ _ _ _ _ _ _
          · cases h
        · cases h
      · unfold updateSwitch at h
        split at h
        · split at h
          · split at h
            · split at h
              · cases h; rfl
              · cases h
            · split at h
              · cases h; rfl
              · cases h; rfl
              · split at h
                · cases h; rfl
                · cases h
              · rename_i variants _
                injection h with h
                rw [Prod.ext_iff] at h
                show notTopDiscr (ctx1, st1).2 = true
                rw [← h.2]
                exact rewriteSwitch_notTop _ _ _ _ _ _ _ _ _
          · cases h
        · cases h
      · cases h; rfl
    · cases h
  · cases h
  · rename_i hex1 hex2
    cases h
    obtain ⟨m, c⟩ := st
    cases c with
    | Assign dest rv =>
      cases rv with
      | Discriminant p a => exact absurd rfl (hex2 m dest p a)
      | Use op => rfl
      | Global g => rfl
    | FakeRead p => rfl
    | SetDiscriminant p v => rfl
    | Drop p => rfl
    | Panic => rfl
    | Return => rfl
    | Break n => rfl
    | Continue n => rfl
    | Nop => rfl
    | Sequence a b => rfl
    | Switch sw => rfl
    | Loop body => rfl

/-- On a body with no discriminant rvalue the whole pass is the identity
and registers no error. -/
theorem visit_noDiscr_id (ctx : TransCtx) (st : Statement)
    (h : stNoDiscr st = true) : visit ctx st = some (ctx, st) := by
  revert h
  refine visit.induct
    (fun ctx st => stNoDiscr st = true → visit ctx st = some (ctx, st))
    (fun ctx st => stNoDiscr st = true → visitChildren ctx st = some (ctx, st))
    (fun ctx l => brNoDiscrN l = true → visitBranchesN ctx l = some (ctx, l))
    (fun ctx l => brNoDiscrS l = true → visitBranchesS ctx l = some (ctx, l))
    ?_ ?_ ?_ ?_ ?_ ?_ ?_ ?_ ?_ ?_ ?_ ?_ ?_ ?_ ?_ ?_ ?_ ?_ ?_ ?_ ?_ ?_ ?_ ?_ ?_ ?_ ?_
    ctx st
  · intro ctx st hu hnd
    rw [update_noDiscr hnd] at hu
    cases hu
  · intro ctx st ctx1 st1 hu ih hnd
    have he := (@update_noDiscr ctx _ hnd).symm.trans hu
    obtain ⟨rfl, rfl⟩ : ctx = ctx1 ∧ st = st1 := by simpa using he
    rw [visit_some hu]
    exact ih hnd
  · intro ctx m s1 s2 hv1 ih1 hnd
    simp only [stNoDiscr, rsNoDiscr, Bool.and_eq_true] at hnd
    rw [ih1 hnd.1] at hv1
    cases hv1
  · intro ctx m s1 s2 c2 s2' hv1 hv2 ih1 ih2 hnd
    simp only [stNoDiscr, rsNoDiscr, Bool.and_eq_true] at hnd
    obtain ⟨rfl, rfl⟩ : ctx = c2 ∧ s1 = s2' := by
      simpa using (ih1 hnd.1).symm.trans hv1
    rw [ih2 hnd.2] at hv2
    cases hv2
  · intro ctx m s1 s2 c2 s2' hv1 c3 s3' hv2 ih1 ih2 hnd
    simp only [stNoDiscr, rsNoDiscr, Bool.and_eq_true] at hnd
    obtain ⟨rfl, rfl⟩ : ctx = c2 ∧ s1 = s2' := by
      simpa using (ih1 hnd.1).symm.trans hv1
    obtain ⟨rfl, rfl⟩ : ctx = c3 ∧ s2 = s3' := by
      simpa using (ih2 hnd.2).symm.trans hv2
    simp [visitChildren, hv1, hv2]
  · intro ctx m op a b hv1 ih1 hnd
    simp only [stNoDiscr, rsNoDiscr, swNoDiscr, Bool.and_eq_true] at hnd
    rw [ih1 hnd.1] at hv1
    cases hv1
  · intro ctx m op a b c2 s2' hv1 hv2 ih1 ih2 hnd
    simp only [stNoDiscr, rsNoDiscr, swNoDiscr, Bool.and_eq_true] at hnd
    obtain ⟨rfl, rfl⟩ : ctx = c2 ∧ a = s2' := by
      simpa using (ih1 hnd.1).symm.trans hv1
    rw [ih2 hnd.2] at hv2
    cases hv2
  · intro ctx m op a b c2 s2' hv1 c3 s3' hv2 ih1 ih2 hnd
    simp only [stNoDiscr, rsNoDiscr, swNoDiscr, Bool.and_eq_true] at hnd
    obtain ⟨rfl, rfl⟩ : ctx = c2 ∧ a = s2' := by
      simpa using (ih1 hnd.1).symm.trans hv1
    obtain ⟨rfl, rfl⟩ : ctx = c3 ∧ b = s3' := by
      simpa using (ih2 hnd.2).symm.trans hv2
    simp [visitChildren, hv1, hv2]
  · intro ctx m op ity ts oth hb ih hnd
    simp only [stNoDiscr, rsNoDiscr, swNoDiscr, Bool.and_eq_true] at hnd
    rw [ih hnd.1] at hb
    cases hb
  · intro ctx m op ity ts oth c1 ts' hb hv ih1 ih2 hnd
    simp only [stNoDiscr, rsNoDiscr, swNoDiscr, Bool.and_eq_true] at hnd
    obtain ⟨rfl, rfl⟩ : ctx = c1 ∧ ts = ts' := by
      simpa using (ih1 hnd.1).symm.trans hb
    rw [ih2 hnd.2] at hv
    cases hv
  · intro ctx m op ity ts oth c1 ts' hb c2 oth' hv ih1 ih2 hnd
    simp only [stNoDiscr, rsNoDiscr, swNoDiscr, Bool.and_eq_true] at hnd
    obtain ⟨rfl, rfl⟩ : ctx = c1 ∧ ts = ts' := by
      simpa using (ih1 hnd.1).symm.trans hb
    obtain ⟨rfl, rfl⟩ : ctx = c2 ∧ oth = oth' := by
      simpa using (ih2 hnd.2).symm.trans hv
    simp [visitChildren, hb, hv]
  · intro ctx m pl ts hb ih hnd
    simp only [stNoDiscr, rsNoDiscr, swNoDiscr, optNoDiscr, Bool.and_eq_true,
      and_true] at hnd
    rw [ih hnd] at hb
    cases hb
  · intro ctx m pl ts c1 ts' hb ih hnd
    simp only [stNoDiscr, rsNoDiscr, swNoDiscr, optNoDiscr, Bool.and_eq_true,
      and_true] at hnd
    obtain ⟨rfl, rfl⟩ : ctx = c1 ∧ ts = ts' := by
      simpa using (ih hnd).symm.trans hb
    simp [visitChildren, hb]
  · intro ctx m pl ts o hb ih hnd
    simp only [stNoDiscr, rsNoDiscr, swNoDiscr, optNoDiscr, Bool.and_eq_true] at hnd
    rw [ih hnd.1] at hb
    cases hb
  · intro ctx m pl ts o c1 ts' hb hv ih1 ih2 hnd
    simp only [stNoDiscr, rsNoDiscr, swNoDiscr, optNoDiscr, Bool.and_eq_true] at hnd
    obtain ⟨rfl, rfl⟩ : ctx = c1 ∧ ts = ts' := by
      simpa using (ih1 hnd.1).symm.trans hb
    rw [ih2 hnd.2] at hv
    cases hv
  · intro ctx m pl ts o c1 ts' hb c2 o' hv ih1 ih2 hnd
    simp only [stNoDiscr, rsNoDiscr, swNoDiscr, optNoDiscr, Bool.and_eq_true] at hnd
    obtain ⟨rfl, rfl⟩ : ctx = c1 ∧ ts = ts' := by
      simpa using (ih1 hnd.1).symm.trans hb
    obtain ⟨rfl, rfl⟩ : ctx = c2 ∧ o = o' := by
      simpa using (ih2 hnd.2).symm.trans hv
    simp [visitChildren, hb, hv]
  · intro ctx m body hv ih hnd
    simp only [stNoDiscr, rsNoDiscr] at hnd
    rw [ih hnd] at hv
    cases hv
  · intro ctx m body c1 body' hv ih hnd
    simp only [stNoDiscr, rsNoDiscr] at hnd
    obtain ⟨rfl, rfl⟩ : ctx = c1 ∧ body = body' := by
      simpa using (ih hnd).symm.trans hv
    simp [visitChildren, hv]
  · intro ctx st hex1 hex2 hex3 hex4 hex5 hex6 hnd
    obtain ⟨m, c⟩ := st
    cases c with
    | Assign dest rv => rw [visitChildren.eq_def]
    | FakeRead p => rw [visitChildren.eq_def]
    | SetDiscriminant p v => rw [visitChildren.eq_def]
    | Drop p => rw [visitChildren.eq_def]
    | Panic => rw [visitChildren.eq_def]
    | Return => rw [visitChildren.eq_def]
    | Break n => rw [visitChildren.eq_def]
    | Continue n => rw [visitChildren.eq_def]
    | Nop => rw [visitChildren.eq_def]
    | Sequence s1 s2 => exact absurd rfl (hex1 m s1 s2)
    | Switch sw =>
      cases sw with
      | If op a b => exact absurd rfl (hex2 m op a b)
      | SwitchInt op ity ts oth => exact absurd rfl (hex3 m op ity ts oth)
      | Match pl ts oth =>
        cases oth with
        | none => exact absurd rfl (hex4 m pl ts)
        | some o => exact absurd rfl (hex5 m pl ts o)
    | Loop body => exact absurd rfl (hex6 m body)
  · intro ctx _
    rw [visitBranchesN.eq_def]
  · intro ctx vs s t hv ih hnd
    simp only [brNoDiscrN, Bool.and_eq_true] at hnd
    rw [ih hnd.1] at hv
    cases hv
  · intro ctx vs s t c2 s2' hv hb ih1 ih2 hnd
    simp only [brNoDiscrN, Bool.and_eq_true] at hnd
    obtain ⟨rfl, rfl⟩ : ctx = c2 ∧ s = s2' := by
      simpa using (ih1 hnd.1).symm.trans hv
    rw [ih2 hnd.2] at hb
    cases hb
  · intro ctx vs s t c2 s2' hv c1 ts' hb ih1 ih2 hnd
    simp only [brNoDiscrN, Bool.and_eq_true] at hnd
    obtain ⟨rfl, rfl⟩ : ctx = c2 ∧ s = s2' := by
      simpa using (ih1 hnd.1).symm.trans hv
    obtain ⟨rfl, rfl⟩ : ctx = c1 ∧ t = ts' := by
      simpa using (ih2 hnd.2).symm.trans hb
    simp [visitBranchesN, hv, hb]
  · intro ctx _
    rw [visitBranchesS.eq_def]
  · intro ctx vs s t hv ih hnd
    simp only [brNoDiscrS, Bool.and_eq_true] at hnd
    rw [ih hnd.1] at hv
    cases hv
  · intro ctx vs s t c2 s2' hv hb ih1 ih2 hnd
    simp only [brNoDiscrS, Bool.and_eq_true] at hnd
    obtain ⟨rfl, rfl⟩ : ctx = c2 ∧ s = s2' := by
      simpa using (ih1 hnd.1).symm.trans hv
    rw [ih2 hnd.2] at hb
    cases hb
  · intro ctx vs s t c2 s2' hv c1 ts' hb ih1 ih2 hnd
    simp only [brNoDiscrS, Bool.and_eq_true] at hnd
    obtain ⟨rfl, rfl⟩ : ctx = c2 ∧ s = s2' := by
      simpa using (ih1 hnd.1).symm.trans hv
    obtain ⟨rfl, rfl⟩ : ctx = c1 ∧ t = ts' := by
      simpa using (ih2 hnd.2).symm.trans hb
    simp [visitBranchesS, hv, hb]

/-- The body produced by a successful run of the pass contains no
discriminant rvalue. -/
theorem visit_out_noDiscr (ctx : TransCtx) (st : Statement) (ctx1 : TransCtx)
    (st1 : Statement) (h : visit ctx st = some (ctx1, st1)) :
    stNoDiscr st1 = true := by
  revert ctx1 st1
  have main : ∀ (c1 : TransCtx) (s1 : Statement),
      visit ctx st = some (c1, s1) → stNoDiscr s1 = true := by
    refine visit.induct
      (fun ctx st => ∀ c' s', visit ctx st = some (c', s') → stNoDiscr s' = true)
      (fun ctx st => notTopDiscr st = true →
        ∀ c' s', visitChildren ctx st = some (c', s') → stNoDiscr s' = true)
      (fun ctx l => ∀ c' l', visitBranchesN ctx l = some (c', l') →
        brNoDiscrN l' = true)
      (fun ctx l => ∀ c' l', visitBranchesS ctx l = some (c', l') →
        brNoDiscrS l' = true)
      ?_ ?_ ?_ ?_ ?_ ?_ ?_ ?_ ?_ ?_ ?_ ?_ ?_ ?_ ?_ ?_ ?_ ?_ ?_ ?_ ?_ ?_ ?_ ?_ ?_ ?_ ?_
      ctx st
    · intro ctx st hu c' s' hv
      rw [visit_none hu] at hv
      cases hv
    · intro ctx st ctx1 st1 hu ih c' s' hv
      rw [visit_some hu] at hv
      exact ih (update_notTopDiscr hu) c' s' hv
    · intro ctx m s1 s2 hv1 ih1 hnt c' s' hv
      simp only [visitChildren, hv1] at hv
      cases hv
    · intro ctx m s1 s2 c2 s2' hv1 hv2 ih1 ih2 hnt c' s' hv
      simp only [visitChildren, hv1, hv2] at hv
      cases hv
    · intro ctx m s1 s2 c2 s2' hv1 c3 s3' hv2 ih1 ih2 hnt c' s' hv
      simp only [visitChildren, hv1, hv2, Option.some.injEq, Prod.mk.injEq] at hv
      obtain ⟨h1, h2⟩ := hv
      subst h2
      simp only [stNoDiscr, rsNoDiscr, Bool.and_eq_true]
      exact ⟨ih1 _ _ hv1, ih2 _ _ hv2⟩
    · intro ctx m op a b hv1 ih1 hnt c' s' hv
      simp only [visitChildren, hv1] at hv
      cases hv
    · intro ctx m op a b c2 s2' hv1 hv2 ih1 ih2 hnt c' s' hv
      simp only [visitChildren, hv1, hv2] at hv
      cases hv
    · intro ctx m op a b c2 s2' hv1 c3 s3' hv2 ih1 ih2 hnt c' s' hv
      simp only [visitChildren, hv1, hv2, Option.some.injEq, Prod.mk.injEq] at hv
      obtain ⟨h1, h2⟩ := hv
      subst h2
      simp only [stNoDiscr, rsNoDiscr, swNoDiscr, Bool.and_eq_true]
      exact ⟨ih1 _ _ hv1, ih2 _ _ hv2⟩
    · intro ctx m op ity ts oth hb ih hnt c' s' hv
      simp only [visitChildren, hb] at hv
      cases hv
    · intro ctx m op ity ts oth c1 ts' hb hv2 ih1 ih2 hnt c' s' hv
      simp only [visitChildren, hb, hv2] at hv
      cases hv
    · intro ctx m op ity ts oth c1 ts' hb c2 oth' hv2 ih1 ih2 hnt c' s' hv
      simp only [visitChildren, hb, hv2, Option.some.injEq, Prod.mk.injEq] at hv
      obtain ⟨h1, h2⟩ := hv
      subst h2
      simp only [stNoDiscr, rsNoDiscr, swNoDiscr, Bool.and_eq_true]
      exact ⟨ih1 _ _ hb, ih2 _ _ hv2⟩
    · intro ctx m pl ts hb ih hnt c' s' hv
      simp only [visitChildren, hb] at hv
      cases hv
    · intro ctx m pl ts c1 ts' hb ih hnt c' s' hv
      simp only [visitChildren, hb, Option.some.injEq, Prod.mk.injEq] at hv
      obtain ⟨h1, h2⟩ := hv
      subst h2
      simp only [stNoDiscr, rsNoDiscr, swNoDiscr, optNoDiscr, Bool.and_eq_true,
        and_true]
      exact ih _ _ hb
    · intro ctx m pl ts o hb ih hnt c' s' hv
      simp only [visitChildren, hb] at hv
      cases hv
    · intro ctx m pl ts o c1 ts' hb hv2 ih1 ih2 hnt c' s' hv
      simp only [visitChildren, hb, hv2] at hv
      cases hv
    · intro ctx m pl ts o c1 ts' hb c2 o' hv2 ih1 ih2 hnt c' s' hv
      simp only [visitChildren, hb, hv2, Option.some.injEq, Prod.mk.injEq] at hv
      obtain ⟨h1, h2⟩ := hv
      subst h2
      simp only [stNoDiscr, rsNoDiscr, swNoDiscr, optNoDiscr, Bool.and_eq_true]
      exact ⟨ih1 _ _ hb, ih2 _ _ hv2⟩
    · intro ctx m body hv1 ih hnt c' s' hv
      simp only [visitChildren, hv1] at hv
      cases hv
    · intro ctx m body c1 body' hv1 ih hnt c' s' hv
      simp only [visitChildren, hv1, Option.some.injEq, Prod.mk.injEq] at hv
      obtain ⟨h1, h2⟩ := hv
      subst h2
      simp only [stNoDiscr, rsNoDiscr]
      exact ih _ _ hv1
    · intro ctx st hex1 hex2 hex3 hex4 hex5 hex6 hnt c' s' hv
      obtain ⟨m, c⟩ := st
      cases c with
      | Assign dest rv =>
        rw [visitChildren.eq_def] at hv
        simp only [Option.some.injEq, Prod.mk.injEq] at hv
        obtain ⟨h1, h2⟩ := hv
        subst h2
        cases rv with
        | Discriminant p a => simp [notTopDiscr] at hnt
        | Use op => rfl
        | Global g => rfl
      | FakeRead p =>
        rw [visitChildren.eq_def] at hv
        simp only [Option.some.injEq, Prod.mk.injEq] at hv
        obtain ⟨h1, h2⟩ := hv
        subst h2
        rfl
      | SetDiscriminant p v =>
        rw [visitChildren.eq_def] at hv
        simp only [Option.some.injEq, Prod.mk.injEq] at hv
        obtain ⟨h1, h2⟩ := hv
        subst h2
        rfl
      | Drop p =>
        rw [visitChildren.eq_def] at hv
        simp only [Option.some.injEq, Prod.mk.injEq] at hv
        obtain ⟨h1, h2⟩ := hv
        subst h2
        rfl
      | Panic =>
        rw [visitChildren.eq_def] at hv
        simp only [Option.some.injEq, Prod.mk.injEq] at hv
        obtain ⟨h1, h2⟩ := hv
        subst h2
        rfl
      | Return =>
        rw [visitChildren.eq_def] at hv
        simp only [Option.some.injEq, Prod.mk.injEq] at hv
        obtain ⟨h1, h2⟩ := hv
        subst h2
        rfl
      | Break n =>
        rw [visitChildren.eq_def] at hv
        simp only [Option.some.injEq, Prod.mk.injEq] at hv
        obtain ⟨h1, h2⟩ := hv
        subst h2
        rfl
      | Continue n =>
        rw [visitChildren.eq_def] at hv
        simp only [Option.some.injEq, Prod.mk.injEq] at hv
        obtain ⟨h1, h2⟩ := hv
        subst h2
        rfl
      | Nop =>
        rw [visitChildren.eq_def] at hv
        simp only [Option.some.injEq, Prod.mk.injEq] at hv
        obtain ⟨h1, h2⟩ := hv
        subst h2
        rfl
      | Sequence s1 s2 => exact absurd rfl (hex1 m s1 s2)
      | Switch sw =>
        cases sw with
        | If op a b => exact absurd rfl (hex2 m op a b)
        | SwitchInt op ity ts oth => exact absurd rfl (hex3 m op ity ts oth)
        | Match pl ts oth =>
          cases oth with
          | none => exact absurd rfl (hex4 m pl ts)
          | some o => exact absurd rfl (hex5 m pl ts o)
      | Loop body => exact absurd rfl (hex6 m body)
    · intro ctx c' l' hv
      rw [visitBranchesN.eq_def] at hv
      simp only [Option.some.injEq, Prod.mk.injEq] at hv
      obtain ⟨h1, h2⟩ := hv
      subst h2
      rfl
    · intro ctx vs s t hv1 ih c' l' hv
      simp only [visitBranchesN, hv1] at hv
      cases hv
    · intro ctx vs s t c2 s2' hv1 hb ih1 ih2 c' l' hv
      simp only [visitBranchesN, hv1, hb] at hv
      cases hv
    · intro ctx vs s t c2 s2' hv1 c1 ts' hb ih1 ih2 c' l' hv
      simp only [visitBranchesN, hv1, hb, Option.some.injEq, Prod.mk.injEq] at hv
      obtain ⟨h1, h2⟩ := hv
      subst h2
      simp only [brNoDiscrN, Bool.and_eq_true]
      exact ⟨ih1 _ _ hv1, ih2 _ _ hb⟩
    · intro ctx c' l' hv
      rw [visitBranchesS.eq_def] at hv
      simp only [Option.some.injEq, Prod.mk.injEq] at hv
      obtain ⟨h1, h2⟩ := hv
      subst h2
      rfl
    · intro ctx vs s t hv1 ih c' l' hv
      simp only [visitBranchesS, hv1] at hv
      cases hv
    · intro ctx vs s t c2 s2' hv1 hb ih1 ih2 c' l' hv
      simp only [visitBranchesS, hv1, hb] at hv
      cases hv
    · intro ctx vs s t c2 s2' hv1 c1 ts' hb ih1 ih2 c' l' hv
      simp only [visitBranchesS, hv1, hb, Option.some.injEq, Prod.mk.injEq] at hv
      obtain ⟨h1, h2⟩ := hv
      subst h2
      simp only [brNoDiscrS, Bool.and_eq_true]
      exact ⟨ih1 _ _ hv1, ih2 _ _ hb⟩
  exact main

/-- Idempotence of the pass: a successful run followed by a second run
leaves the body (and the error counter) unchanged. -/
theorem visit_idem (ctx : TransCtx) (st : Statement) (ctx1 : TransCtx)
    (st1 : Statement) (h : visit ctx st = some (ctx1, st1)) :
    visit ctx1 st1 = some (ctx1, st1) :=
  visit_noDiscr_id ctx1 st1 (visit_out_noDiscr ctx st ctx1 st1 h)

/-- All raw case values appearing in the switch arms, in order, as bit
patterns. -/
def targetsBits (l : List (List ScalarValue × Statement)) : List Nat :=
  (l.map (fun a => a.1.map ScalarValue.to_bits)).flatten

/-- The arm translation in the all-values-valid case: each case value is
replaced by the variant id its bit pattern maps to. -/
def mappedTargets (variants : List Variant)
    (l : List (List ScalarValue × Statement)) : List (List Nat × Statement) :=
  l.map (fun a =>
    (a.1.map (fun v => (discrToId variants (ScalarValue.to_bits v)).getD 0), a.2))

/-- A hit in `discr_to_id` returns the index of a variant whose stored
discriminant is exactly the looked-up bit pattern. -/
theorem discrToId_eq_some {variants : List Variant} {d i : Nat}
    (h : discrToId variants d = some i) :
    ∃ v, variants.get? i = some v ∧ v.discriminant = d := by
  unfold discrToId at h
  obtain ⟨iv, hfind, hfst⟩ := Option.map_eq_some'.mp h
  obtain ⟨j, v⟩ := iv
  have hp := List.find?_some hfind
  have hmem := List.mem_of_find?_eq_some hfind
  rw [List.mem_reverse] at hmem
  have hget := List.mem_enum_iff_get?.mp hmem
  simp only at hfst hget
  subst hfst
  exact ⟨v, hget, by simpa using hp⟩

/-- A bit pattern that is some variant's stored discriminant is present in
`discr_to_id`. -/
theorem discrToId_ne_none {variants : List Variant} {d : Nat}
    (h : d ∈ variants.map (fun v => v.discriminant)) :
    discrToId variants d ≠ none := by
  unfold discrToId
  intro hc
  rw [Option.map_eq_none'] at hc
  rw [List.find?_eq_none] at hc
  obtain ⟨v, hv, hd⟩ := List.mem_map.mp h
  obtain ⟨j, hj⟩ := List.get?_of_mem hv
  have hmem : (j, v) ∈ variants.enum := List.mem_enum_iff_get?.mpr (by simpa using hj)
  exact hc (j, v) (List.mem_reverse.mpr hmem) (by simpa using hd)

/-- The covered-value set after converting one arm is the initial set plus
all the arm's bit patterns (also the patterns that matched no variant). -/
theorem convertValues_covered (dti : Nat → Option Nat) (vs : List ScalarValue) :
    ∀ (ctx : TransCtx) (cov : Finset Nat),
      (convertValues dti ctx cov vs).2.1 =
        cov ∪ (vs.map ScalarValue.to_bits).toFinset := by
  induction vs with
  | nil => intro ctx cov; simp [convertValues]
  | cons x xs ih =>
    intro ctx cov
    simp only [convertValues]
    split
    · simp [ih, List.toFinset_cons, Finset.insert_union, Finset.union_insert]
    · simp [ih, List.toFinset_cons, Finset.insert_union, Finset.union_insert]

/-- When every case value of an arm maps to a variant, the conversion
registers no error and translates the values pointwise. -/
theorem convertValues_total (dti : Nat → Option Nat) (vs : List ScalarValue) :
    ∀ (ctx : TransCtx) (cov : Finset Nat),
      (∀ x ∈ vs, dti (ScalarValue.to_bits x) ≠ none) →
      convertValues dti ctx cov vs =
        (ctx, cov ∪ (vs.map ScalarValue.to_bits).toFinset,
          vs.map (fun x => (dti (ScalarValue.to_bits x)).getD 0)) := by
  induction vs with
  | nil => intro ctx cov h; simp [convertValues]
  | cons x xs ih =>
    intro ctx cov h
    obtain ⟨i, hi⟩ := Option.ne_none_iff_exists'.mp (h x (by simp))
    simp only [convertValues, hi]
    rw [ih _ _ (fun y hy => h y (by simp [hy]))]
    simp [hi, List.toFinset_cons, Finset.insert_union, Finset.union_insert]

/-- The covered-value set after converting all arms is the set of all raw
case-value bit patterns across the arms. -/
theorem convertTargets_covered (dti : Nat → Option Nat)
    (l : List (List ScalarValue × Statement)) :
    ∀ (ctx : TransCtx) (cov : Finset Nat),
      (convertTargets dti ctx cov l).2.1 = cov ∪ (targetsBits l).toFinset := by
  induction l with
  | nil => intro ctx cov; simp [convertTargets, targetsBits]
  | cons a t ih =>
    intro ctx cov
    obtain ⟨vs, e⟩ := a
    simp only [convertTargets]
    rw [ih, convertValues_covered]
    simp [targetsBits, List.toFinset_append, Finset.union_assoc]

/-- When every case value of every arm maps to a variant, the conversion of
all arms registers no error and translates each arm pointwise. -/
theorem convertTargets_total (dti : Nat → Option Nat)
    (l : List (List ScalarValue × Statement)) :
    ∀ (ctx : TransCtx) (cov : Finset Nat),
      (∀ a ∈ l, ∀ x ∈ a.1, dti (ScalarValue.to_bits x) ≠ none) →
      convertTargets dti ctx cov l =
        (ctx, cov ∪ (targetsBits l).toFinset,
          l.map (fun a =>
            (a.1.map (fun x => (dti (ScalarValue.to_bits x)).getD 0), a.2))) := by
  induction l with
  | nil => intro ctx cov h; simp [convertTargets, targetsBits]
  | cons a t ih =>
    intro ctx cov h
    obtain ⟨vs, e⟩ := a
    simp only [convertTargets]
    rw [convertValues_total dti vs ctx cov (fun x hx => h (vs, e) (by simp) x hx)]
    rw [ih _ _ (fun b hb x hx => h b (by simp [hb]) x hx)]
    simp [targetsBits, List.toFinset_append, Finset.union_assoc]

/-- Translated arms keep the original branch statements, so they contain a
discriminant rvalue exactly when the original arms do. -/
theorem brNoDiscrN_map (g : List ScalarValue → List Nat) :
    ∀ (l : List (List ScalarValue × Statement)),
      brNoDiscrN (l.map (fun a => (g a.1, a.2))) = brNoDiscrS l := by
  intro l
  induction l with
  | nil => rfl
  | cons a t ih =>
    obtain ⟨vs, e⟩ := a
    simp only [List.map_cons, brNoDiscrN, brNoDiscrS, ih]

/-- The default visitor is the identity on a statement with no discriminant
rvalue. -/
theorem visitChildren_noDiscr_id (ctx : TransCtx) (st : Statement)
    (h : stNoDiscr st = true) : visitChildren ctx st = some (ctx, st) :=
  ((visit_some (update_noDiscr h)).symm).trans (visit_noDiscr_id ctx st h)

/-- The discriminant-read-then-switch idiom: a discriminant assignment
immediately followed — directly or through one level of sequencing — by an
integer switch on the assigned temporary. -/
def discrIdiom (m m1 mS m2 : Meta) (dest x op_p : Place) (adt : Nat)
    (ity : IntegerTy) (targets : List (List ScalarValue × Statement))
    (oth : Statement) (st3opt : Option Statement) : Statement :=
  match st3opt with
  | some st3 =>
    .mk m (.Sequence (.mk m1 (.Assign dest (.Discriminant x adt)))
      (.mk mS (.Sequence
        (.mk m2 (.Switch (.SwitchInt (.Move op_p) ity targets oth))) st3)))
  | none =>
    .mk m (.Sequence (.mk m1 (.Assign dest (.Discriminant x adt)))
      (.mk m2 (.Switch (.SwitchInt (.Move op_p) ity targets oth))))

/-- Shape of the statement spliced in by a successful rewrite: the match on
the original enum place, re-sequenced with the trailing statement (if any)
under a combined span. -/
def discrIdiomResult (m m1 m2 : Meta) (x : Place)
    (ts' : List (List Nat × Statement)) (oth' : Option Statement)
    (st3opt : Option Statement) : Statement :=
  match st3opt with
  | some st3 =>
    .mk m (.Sequence (.mk (combine_meta m1 m2) (.Switch (.Match x ts' oth'))) st3)
  | none => .mk m (.Switch (.Match x ts' oth'))

/-- On a well-shaped idiom over an enum, `update_statement` performs the
rewrite. -/
theorem update_enum_rewrite {ctx : TransCtx} (m m1 mS m2 : Meta)
    {dest : Place} (x : Place) {op_p : Place} {adt : Nat} (ity : IntegerTy)
    (targets : List (List ScalarValue × Statement)) (oth : Statement)
    (st3opt : Option Statement) {decl : TypeDecl} {variants : List Variant}
    (hdest : dest.projection = []) (hproj : op_p.projection = [])
    (hvar : op_p.var_id = dest.var_id)
    (hty : typeDeclsGet ctx adt = some decl)
    (hkind : decl.kind = TypeDeclKind.Enum variants) :
    update_statement ctx (discrIdiom m m1 mS m2 dest x op_p adt ity targets oth st3opt) =
      some (rewriteSwitch ctx m m1 m2 x variants targets oth st3opt) := by
  cases st3opt with
  | some st3 =>
    simp [discrIdiom, update_statement, updateSeq, updateSwitch, hdest, hproj,
      hvar, hty, hkind]
  | none =>
    simp [discrIdiom, update_statement, updateSeq, updateSwitch, hdest, hproj,
      hvar, hty, hkind]

/-- The rewrite in terms of the covered-value set: the otherwise branch is
dropped exactly when the number of distinct covered bit patterns equals the
number of distinct stored discriminants. -/
theorem rewriteSwitch_otherwise_eq (ctx : TransCtx) (m m1 m2 : Meta) (x : Place)
    (variants : List Variant) (targets : List (List ScalarValue × Statement))
    (oth : Statement) (st3opt : Option Statement) :
    rewriteSwitch ctx m m1 m2 x variants targets oth st3opt =
      ((convertTargets (discrToId variants) ctx ∅ targets).1,
        discrIdiomResult m m1 m2 x
          (convertTargets (discrToId variants) ctx ∅ targets).2.2
          (if (targetsBits targets).toFinset.card = numDistinctDiscrs variants
            then none else some oth)
          st3opt) := by
  have hcov := convertTargets_covered (discrToId variants) targets ctx ∅
  rw [Finset.empty_union] at hcov
  cases st3opt with
  | some st3 => simp [rewriteSwitch, discrIdiomResult, hcov]
  | none => simp [rewriteSwitch, discrIdiomResult, hcov]

/-- The rewrite when every case value maps to a variant and the covered
patterns are exactly the stored discriminants: no error is registered, the
arms are translated pointwise and the otherwise branch is dropped. -/
theorem rewriteSwitch_total_eq (ctx : TransCtx) (m m1 m2 : Meta) (x : Place)
    (variants : List Variant) (targets : List (List ScalarValue × Statement))
    (oth : Statement) (st3opt : Option Statement)
    (htotal : ∀ a ∈ targets, ∀ v ∈ a.1,
      discrToId variants (ScalarValue.to_bits v) ≠ none)
    (hcov : (targetsBits targets).toFinset =
      (variants.map (fun v => v.discriminant)).toFinset) :
    rewriteSwitch ctx m m1 m2 x variants targets oth st3opt =
      (ctx, discrIdiomResult m m1 m2 x (mappedTargets variants targets) none st3opt) := by
  rw [rewriteSwitch_otherwise_eq]
  rw [convertTargets_total (discrToId variants) targets ctx ∅ htotal]
  rw [hcov]
  simp [mappedTargets, numDistinctDiscrs]

/-! Concrete data used by witnesses and counterexamples. -/

/-- A concrete span. -/
def meta0 : Meta := ⟨0, 1⟩

/-- A concrete span. -/
def meta1 : Meta := ⟨2, 3⟩

/-- A concrete span. -/
def metaS : Meta := ⟨4, 5⟩

/-- A concrete span. -/
def meta2 : Meta := ⟨6, 7⟩

/-- The discriminant temporary `t` (a bare variable). -/
def tPlace : Place := ⟨0, []⟩

/-- The enum place `x` (a bare variable). -/
def xPlace : Place := ⟨1, []⟩

/-- Branch target `L1`. -/
def stmtL1 : Statement := .mk meta0 .Return

/-- Branch target `L2`. -/
def stmtL2 : Statement := .mk meta0 (.Break 0)

/-- Default target `L3`. -/
def stmtL3 : Statement := .mk meta0 (.Continue 0)

/-- Variant `A` with runtime discriminant `0`. -/
def varA : Variant := ⟨meta0, "A", [], 0⟩

/-- Variant `B` with runtime discriminant `1`. -/
def varB : Variant := ⟨meta0, "B", [], 1⟩

/-- Variant `C` with runtime discriminant `2`. -/
def varC : Variant := ⟨meta0, "C", [], 2⟩

/-- An enum with exactly two variants, discriminants `0` and `1`, declared
at type id `7`. -/
def enumAB : TypeDecl := ⟨7, .Enum [varA, varB]⟩

/-- Context whose type table holds `enumAB` at index `7` (indices `0`-`6`
are opaque placeholders), with a clean error counter. -/
def ctxAB : TransCtx :=
  ⟨[⟨0, .Opaque⟩, ⟨1, .Opaque⟩, ⟨2, .Opaque⟩, ⟨3, .Opaque⟩, ⟨4, .Opaque⟩,
    ⟨5, .Opaque⟩, ⟨6, .Opaque⟩, enumAB], 0, []⟩

/-- Signed 8-bit variant whose stored runtime discriminant is the bit
pattern of `-1` (that is, `255`). -/
def varM255 : Variant := ⟨meta0, "M", [], 255⟩

/-- C3: Bit-width-correct discriminant matching: the discriminant-to-variant
mapping compares the variant's stored runtime discriminant and the switch
case value as unsigned bit patterns (`to_bits`): a hit always returns a
variant whose stored discriminant equals the case value's bit pattern, and
a case value whose bit pattern is some variant's stored discriminant never
fails to match; in particular, for a signed 8-bit enum with a variant
discriminant of `-1` (stored bit pattern `255`), the case value `I8 (-1)`
(bit pattern `255`) maps to that variant rather than failing on a sign
mismatch. -/
theorem claim3_bitwise_discriminant_matching :
    (ScalarValue.to_bits (.I8 (-1)) = 255) ∧
    (∀ (variants : List Variant) (d i : Nat),
      discrToId variants d = some i →
        ∃ v, variants.get? i = some v ∧ v.discriminant = d) ∧
    (∀ (variants : List Variant) (x : ScalarValue),
      ScalarValue.to_bits x ∈ variants.map (fun v => v.discriminant) →
        discrToId variants (ScalarValue.to_bits x) ≠ none) ∧
    (discrToId [varM255] (ScalarValue.to_bits (.I8 (-1))) = some 0) := by
  refine ⟨by decide, ?_, ?_, by decide⟩
  · intro variants d i h
    exact discrToId_eq_some h
  · intro variants x h
    exact discrToId_ne_none h

/-- Witness for C3: the signed-8-bit `-1` case value hits the variant with
stored bit pattern `255`, and the hit returns that variant. -/
theorem claim3_witness :
    (discrToId [varM255] 255 = some 0) ∧
    (∃ v, [varM255].get? 0 = some v ∧ v.discriminant = 255) :=
  ⟨by decide, claim3_bitwise_discriminant_matching.2.1 [varM255] 255 0 (by decide)⟩

/-- C7: Idempotence of the normalization pass: if one application of the
pass on a body succeeds, running the pass a second time on the resulting
body leaves it unchanged (and registers no further error), because one
pass leaves no residual discriminant-read idiom in the body. -/
theorem claim7_idempotence (ctx : TransCtx) (st : Statement) (ctx1 : TransCtx)
    (st1 : Statement) (h : visit ctx st = some (ctx1, st1)) :
    visit ctx1 st1 = some (ctx1, st1) :=
  visit_idem ctx st ctx1 st1 h

/-- Witness for C7: the pass succeeds on a concrete one-statement body and
a second run leaves the result unchanged. -/
theorem claim7_witness :
    (visit ctxAB stmtL1 = some (ctxAB, stmtL1)) ∧
    (visit ctxAB stmtL1 = some (ctxAB, stmtL1)) :=
  ⟨visit_noDiscr_id ctxAB stmtL1 rfl,
   claim7_idempotence ctxAB stmtL1 ctxAB stmtL1 (visit_noDiscr_id ctxAB stmtL1 rfl)⟩

/-- `TraitInstanceId` from `types.rs`: the trait-resolution witness. The
`Ty` payload of `FnPointer` and the `GenericArgs` payload of `Closure` and
`Unsolved` are type parameters, compared through supplied comparators. -/
inductive TraitInstanceId (T G : Type) where
  | TraitImpl (id : Nat)
  | BuiltinOrAuto (id : Nat)
  | Clause (id : Nat)
  | ParentClause (inst : TraitInstanceId T G) (decl : Nat) (clause : Nat)
  | ItemClause (inst : TraitInstanceId T G) (decl : Nat) (item : String)
      (clause : Nat)
  | FnPointer (ty : T)
  | Closure (fid : Nat) (args : G)
  | SelfId
  | Unsolved (decl : Nat) (args : G)
  | Unknown (msg : String)

/-- Declaration index of a `TraitInstanceId` variant, in source declaration
order; Rust `derive(Ord)` compares this first. -/
def TraitInstanceId.variantIdx {T G : Type} : TraitInstanceId T G → Nat
  | .TraitImpl _ => 0
  | .BuiltinOrAuto _ => 1
  | .Clause _ => 2
  | .ParentClause _ _ _ => 3
  | .ItemClause _ _ _ _ => 4
  | .FnPointer _ => 5
  | .Closure _ _ => 6
  | .SelfId => 7
  | .Unsolved _ _ => 8
  | .Unknown _ => 9

/-- The comparison derived by `derive(PartialOrd, Ord)` on
`TraitInstanceId`: different variants compare by declaration order, equal
variants compare their fields lexicographically. -/
def TraitInstanceId.cmp {T G : Type} (cmpT : T → T → Ordering)
    (cmpG : G → G → Ordering) :
    TraitInstanceId T G → TraitInstanceId T G → Ordering
  | .TraitImpl a, .TraitImpl b => compare a b
  | .BuiltinOrAuto a, .BuiltinOrAuto b => compare a b
  | .Clause a, .Clause b => compare a b
  | .ParentClause t1 d1 c1, .ParentClause t2 d2 c2 =>
    (cmp cmpT cmpG t1 t2).then ((compare d1 d2).then (compare c1 c2))
  | .ItemClause t1 d1 n1 c1, .ItemClause t2 d2 n2 c2 =>
    (cmp cmpT cmpG t1 t2).then
      ((compare d1 d2).then ((compare n1 n2).then (compare c1 c2)))
  | .FnPointer a, .FnPointer b => cmpT a b
  | .Closure f1 g1, .Closure f2 g2 => (compare f1 f2).then (cmpG g1 g2)
  | .SelfId, .SelfId => .eq
  | .Unsolved d1 g1, .Unsolved d2 g2 => (compare d1 d2).then (cmpG g1 g2)
  | .Unknown s1, .Unknown s2 => compare s1 s2
  | a, b => compare a.variantIdx b.variantIdx

/-- Counterexample to C10: `SelfId` is not ordered last among the
`TraitInstanceId` variants: the placeholder witness shapes `Unsolved` and
`Unknown` compare strictly greater than `SelfId`, so not every non-`SelfId`
witness shape compares strictly less than `SelfId`. -/
theorem claim10_counterexample :
    (TraitInstanceId.cmp (fun (_ _ : Unit) => Ordering.eq)
      (fun (_ _ : Unit) => Ordering.eq) (.Unknown "") .SelfId = .gt) ∧
    (TraitInstanceId.cmp (fun (_ _ : Unit) => Ordering.eq)
      (fun (_ _ : Unit) => Ordering.eq) (.Unsolved 0 ()) .SelfId = .gt) := by
  exact ⟨rfl, rfl⟩

/-- C10 (amended): in the comparison order on `TraitInstanceId`, `SelfId`
is ordered after all resolved witness shapes — `TraitImpl`,
`BuiltinOrAuto`, `Clause`, `ParentClause`, `ItemClause`, `FnPointer` and
`Closure` all compare strictly less than `SelfId`; in particular every
local clause witness `Clause i` does, so comparison prefers local concrete
derivations over `Self`-reflexive ones — while only the placeholder shapes
`Unsolved` and `Unknown` compare strictly greater than `SelfId`. -/
theorem claim10_self_ordered_after_resolved (T G : Type)
    (cmpT : T → T → Ordering) (cmpG : G → G → Ordering)
    (i d c f : Nat) (s msg : String) (t : TraitInstanceId T G) (ty : T) (g : G) :
    (TraitInstanceId.cmp cmpT cmpG (.TraitImpl i) .SelfId = .lt) ∧
    (TraitInstanceId.cmp cmpT cmpG (.BuiltinOrAuto i) .SelfId = .lt) ∧
    (TraitInstanceId.cmp cmpT cmpG (.Clause i) .SelfId = .lt) ∧
    (TraitInstanceId.cmp cmpT cmpG (.ParentClause t d c) .SelfId = .lt) ∧
    (TraitInstanceId.cmp cmpT cmpG (.ItemClause t d s c) .SelfId = .lt) ∧
    (TraitInstanceId.cmp cmpT cmpG (.FnPointer ty) .SelfId = .lt) ∧
    (TraitInstanceId.cmp cmpT cmpG (.Closure f g) .SelfId = .lt) ∧
    (TraitInstanceId.cmp cmpT cmpG .SelfId (.Unsolved d g) = .lt) ∧
    (TraitInstanceId.cmp cmpT cmpG .SelfId (.Unknown msg) = .lt) :=
  ⟨rfl, rfl, rfl, rfl, rfl, rfl, rfl, rfl, rfl⟩

/-- Crate snapshot data as assembled for serialization, from `export.rs`
(`GCrateData`); the declaration vectors, which are copied unchanged from
the context, are elided — the verified claims concern the file table and
the error flag. -/
structure GCrateData where
  name : String
  id_to_file : List (Nat × String)
  has_errors : Bool

/-- `GCrateData::new` from `export.rs`: collect the keys of the
file-id-to-filename map, sort them, and emit the table as `(id, name)`
pairs in sorted key order; `has_errors` is derived from whether the error
counter is non-zero. -/
def GCrateData.new (ctx : TransCtx) (crate_name : String) : GCrateData :=
  let file_ids := (ctx.id_to_file.map Prod.fst).mergeSort (fun a b => decide (a ≤ b))
  { name := crate_name
    id_to_file := file_ids.map (fun id => (id, (ctx.id_to_file.lookup id).getD ""))
    has_errors := decide (ctx.error_count > 0) }

/-- A key of an association list is always found by `lookup`. -/
theorem lookup_isSome_of_mem_keys {l : List (Nat × String)} {id : Nat}
    (h : id ∈ l.map Prod.fst) : ∃ w, l.lookup id = some w := by
  induction l with
  | nil => simp at h
  | cons a t ih =>
    obtain ⟨k, v⟩ := a
    simp only [List.map_cons, List.mem_cons] at h
    by_cases he : k = id
    · exact ⟨v, by simp [List.lookup, he]⟩
    · have hm : id ∈ t.map Prod.fst := by
        rcases h with h | h
        · exact absurd h.symm he
        · exact h
      obtain ⟨w, hw⟩ := ih hm
      refine ⟨w, ?_⟩
      have hne : (id == k) = false := beq_eq_false_iff_ne.mpr (fun hh => he hh.symm)
      simpa [List.lookup, hne] using hw

/-- C9: Sorted file table in the snapshot: assembling the crate data emits
the file-id-to-filename table as a list of `(file id, file name)` pairs in
strictly increasing file-id order, where each pair's name is the name the
context's map associates to that id, and the emitted ids are exactly the
map's keys. -/
theorem claim9_sorted_file_table (ctx : TransCtx) (crate_name : String)
    (hnodup : (ctx.id_to_file.map Prod.fst).Nodup) :
    List.Pairwise (fun a b => a < b)
      (((GCrateData.new ctx crate_name).id_to_file).map Prod.fst) ∧
    (∀ p ∈ (GCrateData.new ctx crate_name).id_to_file,
      ctx.id_to_file.lookup p.1 = some p.2) ∧
    ((((GCrateData.new ctx crate_name).id_to_file).map Prod.fst).Perm
      (ctx.id_to_file.map Prod.fst)) := by
  have hmapfst : ((GCrateData.new ctx crate_name).id_to_file).map Prod.fst =
      (ctx.id_to_file.map Prod.fst).mergeSort (fun a b => decide (a ≤ b)) := by
    simp only [GCrateData.new]
    rw [List.map_map]
    exact List.map_id _
  have hperm := List.mergeSort_perm (ctx.id_to_file.map Prod.fst)
    (fun a b => decide (a ≤ b))
  have hsorted := @List.sorted_mergeSort Nat (fun a b => decide (a ≤ b))
    (fun a b c h1 h2 =>
      decide_eq_true (Nat.le_trans (of_decide_eq_true h1) (of_decide_eq_true h2)))
    (fun a b => by
      rcases Nat.le_total a b with h | h
      · simp [h]
      · simp [h])
    (ctx.id_to_file.map Prod.fst)
  have hnodup2 : ((ctx.id_to_file.map Prod.fst).mergeSort
      (fun a b => decide (a ≤ b))).Nodup := hperm.symm.nodup hnodup
  refine ⟨?_, ?_, ?_⟩
  · rw [hmapfst]
    have hand := List.Pairwise.and hsorted hnodup2
    refine hand.imp ?_
    intro a b hab
    obtain ⟨h1, h2⟩ := hab
    simp only [decide_eq_true_eq] at h1
    omega
  · intro p hp
    simp only [GCrateData.new] at hp
    obtain ⟨id, hid, rfl⟩ := List.mem_map.mp hp
    have hidk : id ∈ ctx.id_to_file.map Prod.fst := hperm.mem_iff.mp hid
    obtain ⟨w, hw⟩ := lookup_isSome_of_mem_keys hidk
    simp [hw]
  · rw [hmapfst]
    exact hperm

/-- Witness for C9: a concrete two-file context with distinct file ids. -/
theorem claim9_witness :
    List.Pairwise (fun a b => a < b)
      (((GCrateData.new ⟨[], 0, [(1, "b"), (0, "a")]⟩ "crate").id_to_file).map
        Prod.fst) ∧
    (∀ p ∈ (GCrateData.new ⟨[], 0, [(1, "b"), (0, "a")]⟩ "crate").id_to_file,
      ([(1, "b"), (0, "a")] : List (Nat × String)).lookup p.1 = some p.2) ∧
    ((((GCrateData.new ⟨[], 0, [(1, "b"), (0, "a")]⟩ "crate").id_to_file).map
      Prod.fst).Perm ([(1, "b"), (0, "a")].map Prod.fst)) :=
  claim9_sorted_file_table ⟨[], 0, [(1, "b"), (0, "a")]⟩ "crate" (by decide)

/-- The arms contain no discriminant rvalue iff every branch statement
contains none. -/
theorem brNoDiscrS_iff (l : List (List ScalarValue × Statement)) :
    brNoDiscrS l = true ↔ ∀ a ∈ l, stNoDiscr a.2 = true := by
  induction l with
  | nil => simp [brNoDiscrS]
  | cons a t ih =>
    obtain ⟨vs, e⟩ := a
    simp [brNoDiscrS, Bool.and_eq_true, ih]

/-- C1: End-to-end rewrite correctness: on a statement of the shape
`t := Discriminant(x, adt_id)` immediately followed — directly or through
one level of sequencing — by an integer switch moving `t`, where `adt_id`
names an enum whose variants' stored discriminants are exactly the case
values covered, the pass rewrites the occurrence into a single `Match` on
the original enum place `x` (not the discarded temporary), with each arm's
case values translated to the corresponding variant ids, with no otherwise
arm, re-attaching the trailing statement via span-combining sequencing;
the rewritten tree contains zero `Discriminant` rvalues, and no error is
registered. -/
theorem claim1_end_to_end_rewrite (ctx : TransCtx) (m m1 mS m2 : Meta)
    (dest x op_p : Place) (adt : Nat) (ity : IntegerTy)
    (targets : List (List ScalarValue × Statement)) (oth : Statement)
    (st3opt : Option Statement) (decl : TypeDecl) (variants : List Variant)
    (hdest : dest.projection = []) (hproj : op_p.projection = [])
    (hvar : op_p.var_id = dest.var_id)
    (hty : typeDeclsGet ctx adt = some decl)
    (hkind : decl.kind = TypeDeclKind.Enum variants)
    (hcov : (targetsBits targets).toFinset =
      (variants.map (fun v => v.discriminant)).toFinset)
    (hbr : ∀ a ∈ targets, stNoDiscr a.2 = true)
    (hst3 : optNoDiscr st3opt = true) :
    visit ctx (discrIdiom m m1 mS m2 dest x op_p adt ity targets oth st3opt) =
      some (ctx, discrIdiomResult m m1 m2 x (mappedTargets variants targets)
        none st3opt) ∧
    stNoDiscr (discrIdiomResult m m1 m2 x (mappedTargets variants targets)
      none st3opt) = true ∧
    (∀ a ∈ targets, ∀ v ∈ a.1, ∃ i vv,
      discrToId variants (ScalarValue.to_bits v) = some i ∧
      variants.get? i = some vv ∧
      vv.discriminant = ScalarValue.to_bits v) := by
  have htotal : ∀ a ∈ targets, ∀ v ∈ a.1,
      discrToId variants (ScalarValue.to_bits v) ≠ none := by
    intro a ha v hv
    apply discrToId_ne_none
    have hmem : ScalarValue.to_bits v ∈ targetsBits targets :=
      List.mem_flatten.mpr ⟨a.1.map ScalarValue.to_bits,
        List.mem_map_of_mem _ ha, List.mem_map_of_mem _ hv⟩
    have := (List.mem_toFinset.mpr hmem)
    rw [hcov] at this
    exact List.mem_toFinset.mp this
  have hupd := update_enum_rewrite m m1 mS m2 x ity targets oth st3opt hdest
    hproj hvar hty hkind
  rw [rewriteSwitch_total_eq ctx m m1 m2 x variants targets oth st3opt htotal
    hcov] at hupd
  have hres : stNoDiscr (discrIdiomResult m m1 m2 x
      (mappedTargets variants targets) none st3opt) = true := by
    have hbrS : brNoDiscrS targets = true := (brNoDiscrS_iff targets).mpr hbr
    cases st3opt with
    | some st3 =>
      simp only [optNoDiscr] at hst3
      simp only [discrIdiomResult, stNoDiscr, rsNoDiscr, swNoDiscr, optNoDiscr,
        mappedTargets, brNoDiscrN_map, Bool.and_eq_true]
      exact ⟨⟨hbrS, trivial⟩, hst3⟩
    | none =>
      simp only [discrIdiomResult, stNoDiscr, rsNoDiscr, swNoDiscr, optNoDiscr,
        mappedTargets, brNoDiscrN_map, Bool.and_eq_true]
      exact ⟨hbrS, trivial⟩
  refine ⟨?_, hres, ?_⟩
  · rw [visit_some hupd]
    exact visitChildren_noDiscr_id _ _ hres
  · intro a ha v hv
    obtain ⟨i, hi⟩ := Option.ne_none_iff_exists'.mp (htotal a ha v hv)
    obtain ⟨vv, hvv, hd⟩ := discrToId_eq_some hi
    exact ⟨i, vv, hi, hvv, hd⟩

/-- The switch arms of the C1 end-to-end scenario: case `0` goes to `L1`,
case `1` goes to `L2`. -/
def targetsW : List (List ScalarValue × Statement) :=
  [([.Isize 0], stmtL1), ([.Isize 1], stmtL2)]

/-- Witness for C1: the spec's end-to-end scenario. A body
`t = Discriminant(x, EnumId(7)); switch t (0 => L1, 1 => L2, otherwise L3)`
over an enum with exactly two variants (discriminants `0`, `1`) rewrites
to `match x (A => L1, B => L2)` with no otherwise arm and no residual
discriminant rvalue. -/
theorem claim1_witness :
    visit ctxAB (discrIdiom meta0 meta1 metaS meta2 tPlace xPlace tPlace 7
      IntegerTy.Isize targetsW stmtL3 none) =
      some (ctxAB, discrIdiomResult meta0 meta1 meta2 xPlace
        (mappedTargets [varA, varB] targetsW) none none) ∧
    stNoDiscr (discrIdiomResult meta0 meta1 meta2 xPlace
      (mappedTargets [varA, varB] targetsW) none none) = true ∧
    (∀ a ∈ targetsW, ∀ v ∈ a.1, ∃ i vv,
      discrToId [varA, varB] (ScalarValue.to_bits v) = some i ∧
      [varA, varB].get? i = some vv ∧
      vv.discriminant = ScalarValue.to_bits v) :=
  claim1_end_to_end_rewrite ctxAB meta0 meta1 metaS meta2 tPlace xPlace tPlace
    7 IntegerTy.Isize targetsW stmtL3 none enumAB [varA, varB]
    rfl rfl rfl (by decide) rfl (by decide) (by decide) rfl

/-- Counterexample to C2: the otherwise arm is dropped when the covered
set's size equals the number of distinct stored discriminants, not the
variant count. For an enum with two variants that share discriminant `0`,
a switch covering only `{0}` has covered-set size `1`, smaller than the
variant count `2` — yet the rewrite drops the otherwise arm (and maps case
`0` to the later variant). -/
theorem claim2_counterexample :
    update_statement ⟨[⟨0, .Enum [⟨meta0, "A", [], 0⟩, ⟨meta0, "B", [], 0⟩]⟩], 0, []⟩
      (discrIdiom meta0 meta1 metaS meta2 tPlace xPlace tPlace 0
        IntegerTy.Isize [([.Isize 0], stmtL1)] stmtL3 none) =
      some (⟨[⟨0, .Enum [⟨meta0, "A", [], 0⟩, ⟨meta0, "B", [], 0⟩]⟩], 0, []⟩,
        .mk meta0 (.Switch (.Match xPlace [([1], stmtL1)] none))) ∧
    ([⟨meta0, "A", [], 0⟩, ⟨meta0, "B", [], 0⟩] : List Variant).length = 2 ∧
    (targetsBits [([.Isize 0], stmtL1)]).toFinset.card = 1 := by
  refine ⟨rfl, rfl, by decide⟩

/-- C2 (amended): Otherwise-branch coverage rule: the pass tracks the set
of raw case values covered across all switch arms, and the rewritten match
drops the otherwise arm exactly when that covered-value set's size equals
the number of distinct stored discriminant values of the enum's variants
(the size of the discriminant-to-variant mapping); when it is different the
original otherwise arm is retained verbatim. (For enums whose variants'
discriminants are pairwise distinct — such as the spec's `0:A, 1:B, 2:C`
examples — the mapping's size is the variant count and the original
reading holds.) -/
theorem claim2_otherwise_coverage (ctx : TransCtx) (m m1 mS m2 : Meta)
    (dest x op_p : Place) (adt : Nat) (ity : IntegerTy)
    (targets : List (List ScalarValue × Statement)) (oth : Statement)
    (st3opt : Option Statement) (decl : TypeDecl) (variants : List Variant)
    (hdest : dest.projection = []) (hproj : op_p.projection = [])
    (hvar : op_p.var_id = dest.var_id)
    (hty : typeDeclsGet ctx adt = some decl)
    (hkind : decl.kind = TypeDeclKind.Enum variants) :
    update_statement ctx (discrIdiom m m1 mS m2 dest x op_p adt ity targets oth
      st3opt) =
      some ((convertTargets (discrToId variants) ctx ∅ targets).1,
        discrIdiomResult m m1 m2 x
          (convertTargets (discrToId variants) ctx ∅ targets).2.2
          (if (targetsBits targets).toFinset.card = numDistinctDiscrs variants
            then none else some oth)
          st3opt) := by
  rw [update_enum_rewrite m m1 mS m2 x ity targets oth st3opt hdest hproj hvar
    hty hkind]
  rw [rewriteSwitch_otherwise_eq]

/-- The switch arms of the C2 retained-otherwise scenario: cases `{0, 1}`
over a three-variant enum. -/
def targets01 : List (List ScalarValue × Statement) :=
  [([.Isize 0], stmtL1), ([.Isize 1], stmtL2)]

/-- A context holding the three-variant enum `{0:A, 1:B, 2:C}` at type
id `0`. -/
def ctxABC : TransCtx := ⟨[⟨0, .Enum [varA, varB, varC]⟩], 0, []⟩

/-- Witness for C2: over the enum `{0:A, 1:B, 2:C}`, a switch covering only
`{0, 1}` (covered size `2`, distinct discriminants `3`) retains the
original otherwise arm verbatim. -/
theorem claim2_witness :
    update_statement ctxABC (discrIdiom meta0 meta1 metaS meta2 tPlace xPlace
      tPlace 0 IntegerTy.Isize targets01 stmtL3 none) =
      some ((convertTargets (discrToId [varA, varB, varC]) ctxABC ∅ targets01).1,
        discrIdiomResult meta0 meta1 meta2 xPlace
          (convertTargets (discrToId [varA, varB, varC]) ctxABC ∅ targets01).2.2
          (if (targetsBits targets01).toFinset.card =
              numDistinctDiscrs [varA, varB, varC]
            then none else some stmtL3)
          none) ∧
    (targetsBits targets01).toFinset.card = 2 ∧
    numDistinctDiscrs [varA, varB, varC] = 3 :=
  ⟨claim2_otherwise_coverage ctxABC meta0 meta1 metaS meta2 tPlace xPlace
    tPlace 0 IntegerTy.Isize targets01 stmtL3 none ⟨0, .Enum [varA, varB, varC]⟩
    [varA, varB, varC] rfl rfl rfl (by decide) rfl, by decide, by decide⟩

/-- The switch arms of the C8 scenario: one arm with raw case values
`{0, 5}` over the two-variant enum `{0:A, 1:B}` — `5` matches no variant. -/
def targets05 : List (List ScalarValue × Statement) :=
  [([.Isize 0, .Isize 5], stmtL1)]

/-- C8 (implicit): the covered-value set counts every raw case value of
every arm, including values that match no variant and are dropped from the
rewritten arm; on the enum `{0:A, 1:B}` with case values `{0, 5}`, the
covered set has size `2`, equal to the mapping's size, so the otherwise
arm is dropped even though `5` was discarded as invalid (with an error
registered) and variant `B` is matched by no arm. Moreover the drop
comparison uses the mapping's size (the number of distinct stored
discriminants), which differs from the variant count when two variants
share a discriminant. -/
theorem claim8_covered_includes_invalid :
    (update_statement ctxAB (discrIdiom meta0 meta1 metaS meta2 tPlace xPlace
      tPlace 7 IntegerTy.Isize targets05 stmtL3 none) =
      some (registerError ctxAB,
        .mk meta0 (.Switch (.Match xPlace [([0], stmtL1)] none)))) ∧
    ((targetsBits targets05).toFinset.card = 2) ∧
    (numDistinctDiscrs [varA, varB] = 2) ∧
    ((5 : Nat) ∉ [varA, varB].map (fun v => v.discriminant)) ∧
    (discrToId [varA, varB] 5 = none) ∧
    (numDistinctDiscrs [⟨meta0, "A", [], 3⟩, ⟨meta0, "B", [], 3⟩] = 1) ∧
    (([⟨meta0, "A", [], 3⟩, ⟨meta0, "B", [], 3⟩] : List Variant).length = 2) :=
  ⟨rfl, by decide, by decide, by decide, by decide, by decide, by decide⟩

/-- Asserts that a statement is not an integer switch, directly or through
one level of sequencing: following a discriminant read, such a statement is
the error case of the successor-shape analysis. -/
def notSwitchSucc : Statement → Bool
  | .mk _ (.Switch (.SwitchInt _ _ _ _)) => false
  | .mk _ (.Sequence (.mk _ (.Switch (.SwitchInt _ _ _ _))) _) => false
  | _ => true

/-- A discriminant read whose successor statement is not an integer switch
is nopped whole, with one error registered. -/
theorem update_wrong_succ (ctx : TransCtx) (m m1 : Meta) (dest x : Place)
    (adt : Nat) (st2 : Statement) (hdest : dest.projection = [])
    (hshape : notSwitchSucc st2 = true) :
    update_statement ctx (.mk m (.Sequence
      (.mk m1 (.Assign dest (.Discriminant x adt))) st2)) =
      some (registerError ctx, .mk m .Nop) := by
  have h1 : update_statement ctx (.mk m (.Sequence
      (.mk m1 (.Assign dest (.Discriminant x adt))) st2)) =
      updateSeq ctx m m1 dest x adt st2 := by
    simp [update_statement, hdest]
  rw [h1]
  unfold updateSeq
  split
  · rename_i mm2 op targets oth st3
    simp [notSwitchSucc] at hshape
  · rename_i m2 op targets oth
    simp [notSwitchSucc] at hshape
  · rfl

/-- A well-shaped occurrence with a wrong-shaped (non-switch) trailing
statement, used in the C4 locality scenario. -/
def occBad : Statement :=
  .mk meta1 (.Sequence (.mk meta2 (.Assign tPlace (.Discriminant xPlace 7)))
    (.mk metaS .Return))

/-- A fully well-shaped occurrence over `enumAB`, used in the C4 locality
scenario. -/
def occGood : Statement :=
  discrIdiom meta0 meta1 metaS meta2 tPlace xPlace tPlace 7 IntegerTy.Isize
    targetsW stmtL3 none

/-- The rewritten form of `occGood`. -/
def goodResult : Statement :=
  discrIdiomResult meta0 meta1 meta2 xPlace (mappedTargets [varA, varB] targetsW)
    none none

/-- A body holding one malformed occurrence followed by one well-formed
occurrence. -/
def bodyTwoOcc : Statement := .mk meta0 (.Sequence occBad occGood)

/-- Counterexample to C4: the claim quantifies over every statement whose
head assigns a discriminant, but when the destination has a projection the
pass asserts (panics, modelled `none`) before looking at the successor,
instead of nopping the occurrence and registering an error. -/
theorem claim4_counterexample :
    update_statement ctxAB (.mk meta0 (.Sequence
      (.mk meta1 (.Assign ⟨0, [.Deref]⟩ (.Discriminant xPlace 7)))
      (.mk meta2 .Return))) = none ∧
    (∀ r : TransCtx × Statement,
      update_statement ctxAB (.mk meta0 (.Sequence
        (.mk meta1 (.Assign ⟨0, [.Deref]⟩ (.Discriminant xPlace 7)))
        (.mk meta2 .Return))) ≠ some r) :=
  ⟨rfl, fun r h => Option.noConfusion h⟩

/-- C4 (amended): Wrong-successor error isolation: for every statement
whose head is an assignment `dest := Discriminant(place, adt_id)` with
`dest` a bare (projection-free) variable, if the successor statement —
directly or through one level of sequencing — is not an integer switch,
the pass replaces the whole occurrence with a `Nop` and registers one
error on the shared counter; and the failure is local: in a body with one
such malformed occurrence and one well-formed occurrence, the pass nops
only the malformed one, rewrites the other normally, and the crate still
exports with the partial flag set. -/
theorem claim4_wrong_successor_isolation (ctx : TransCtx) (m m1 : Meta)
    (dest x : Place) (adt : Nat) (st2 : Statement)
    (hdest : dest.projection = []) (hshape : notSwitchSucc st2 = true) :
    (update_statement ctx (.mk m (.Sequence
      (.mk m1 (.Assign dest (.Discriminant x adt))) st2)) =
      some (registerError ctx, .mk m .Nop)) ∧
    (visit ctxAB bodyTwoOcc =
      some (registerError ctxAB,
        .mk meta0 (.Sequence (.mk meta1 .Nop) goodResult))) ∧
    ((GCrateData.new (registerError ctxAB) "crate").has_errors = true) := by
  refine ⟨update_wrong_succ ctx m m1 dest x adt st2 hdest hshape, ?_, rfl⟩
  have hbad : visit ctxAB occBad = some (registerError ctxAB, .mk meta1 .Nop) :=
    (visit_some (rfl :
      update_statement ctxAB occBad = some (registerError ctxAB, .mk meta1 .Nop))).trans
      (visitChildren_noDiscr_id _ _ rfl)
  have hupd := @update_enum_rewrite (registerError ctxAB) meta0 meta1 metaS
    meta2 tPlace xPlace tPlace 7 IntegerTy.Isize targetsW stmtL3 none enumAB
    [varA, varB] rfl rfl rfl (by decide) rfl
  rw [rewriteSwitch_total_eq (registerError ctxAB) meta0 meta1 meta2 xPlace
    [varA, varB] targetsW stmtL3 none (by decide) (by decide)] at hupd
  have hgood : visit (registerError ctxAB) occGood =
      some (registerError ctxAB, goodResult) := by
    rw [occGood, visit_some hupd]
    exact visitChildren_noDiscr_id _ _ (by decide)
  have hbody : update_statement ctxAB bodyTwoOcc = some (ctxAB, bodyTwoOcc) := rfl
  rw [visit_some hbody]
  rw [show bodyTwoOcc = .mk meta0 (.Sequence occBad occGood) from rfl]
  simp only [visitChildren, hbad, hgood]

/-- Witness for C4: the malformed occurrence (`Return` successor) is nopped
with one error, the other occurrence in the same body is rewritten
normally, and the snapshot is marked partial. -/
theorem claim4_witness :
    (update_statement ctxAB (.mk meta1 (.Sequence
      (.mk meta2 (.Assign tPlace (.Discriminant xPlace 7)))
      (.mk metaS .Return))) = some (registerError ctxAB, .mk meta1 .Nop)) ∧
    (visit ctxAB bodyTwoOcc =
      some (registerError ctxAB,
        .mk meta0 (.Sequence (.mk meta1 .Nop) goodResult))) ∧
    ((GCrateData.new (registerError ctxAB) "crate").has_errors = true) :=
  claim4_wrong_successor_isolation ctxAB meta1 meta2 tPlace xPlace 7
    (.mk metaS .Return) rfl (by decide)

/-- A context whose type table holds an error-placeholder declaration, with
one previously registered error. -/
def ctxErr : TransCtx := ⟨[⟨0, .Error "extraction failed"⟩], 1, []⟩

/-- The discriminant idiom over the error-placeholder declaration. -/
def idiomErr : Statement :=
  discrIdiom meta0 meta1 metaS meta2 tPlace xPlace tPlace 0 IntegerTy.Isize
    [([.Isize 0], stmtL1)] stmtL3 none

/-- Counterexample to C5: on an error-placeholder declaration the pass nops
the occurrence but does not register an error: with one prior error the
counter stays at `1` instead of being incremented to `2`. -/
theorem claim5_counterexample :
    (update_statement ctxErr idiomErr = some (ctxErr, .mk meta0 .Nop)) ∧
    ((update_statement ctxErr idiomErr).map (fun r => r.1.error_count) =
      some 1) ∧
    ((registerError ctxErr).error_count = 2) ∧
    ((1 : Nat) ≠ 2) :=
  ⟨rfl, rfl, rfl, by decide⟩

/-- C5 (amended): Non-enum or missing scrutinee handling: for every
occurrence of the discriminant-read-then-switch idiom, if the declaration
named by `adt_id` is a struct or opaque, the pass registers an error and
replaces the whole occurrence with a `Nop`; if the declaration is an error
placeholder or missing from the table, the pass replaces the occurrence
with a `Nop` without registering a new error — asserting instead that an
earlier error was recorded, and panicking when the error counter is
zero. No rewrite is performed in any of these cases. -/
theorem claim5_non_enum_scrutinee (ctx : TransCtx) (m m1 mS m2 : Meta)
    (dest x op_p : Place) (adt : Nat) (ity : IntegerTy)
    (targets : List (List ScalarValue × Statement)) (oth : Statement)
    (st3opt : Option Statement) (hdest : dest.projection = [])
    (hproj : op_p.projection = []) (hvar : op_p.var_id = dest.var_id) :
    (∀ decl fields, typeDeclsGet ctx adt = some decl →
      decl.kind = TypeDeclKind.Struct fields →
      update_statement ctx (discrIdiom m m1 mS m2 dest x op_p adt ity targets
        oth st3opt) = some (registerError ctx, .mk m .Nop)) ∧
    (∀ decl, typeDeclsGet ctx adt = some decl →
      decl.kind = TypeDeclKind.Opaque →
      update_statement ctx (discrIdiom m m1 mS m2 dest x op_p adt ity targets
        oth st3opt) = some (registerError ctx, .mk m .Nop)) ∧
    (∀ decl msg, typeDeclsGet ctx adt = some decl →
      decl.kind = TypeDeclKind.Error msg →
      (ctx.error_count ≠ 0 →
        update_statement ctx (discrIdiom m m1 mS m2 dest x op_p adt ity targets
          oth st3opt) = some (ctx, .mk m .Nop)) ∧
      (ctx.error_count = 0 →
        update_statement ctx (discrIdiom m m1 mS m2 dest x op_p adt ity targets
          oth st3opt) = none)) ∧
    (typeDeclsGet ctx adt = none →
      (ctx.error_count ≠ 0 →
        update_statement ctx (discrIdiom m m1 mS m2 dest x op_p adt ity targets
          oth st3opt) = some (ctx, .mk m .Nop)) ∧
      (ctx.error_count = 0 →
        update_statement ctx (discrIdiom m m1 mS m2 dest x op_p adt ity targets
          oth st3opt) = none)) := by
  refine ⟨?_, ?_, ?_, ?_⟩
  · intro decl fields hty hkind
    cases st3opt with
    | some st3 =>
      simp [discrIdiom, update_statement, updateSeq, updateSwitch, hdest,
        hproj, hvar, hty, hkind]
    | none =>
      simp [discrIdiom, update_statement, updateSeq, updateSwitch, hdest,
        hproj, hvar, hty, hkind]
  · intro decl hty hkind
    cases st3opt with
    | some st3 =>
      simp [discrIdiom, update_statement, updateSeq, updateSwitch, hdest,
        hproj, hvar, hty, hkind]
    | none =>
      simp [discrIdiom, update_statement, updateSeq, updateSwitch, hdest,
        hproj, hvar, hty, hkind]
  · intro decl msg hty hkind
    constructor
    · intro hne
      cases st3opt with
      | some st3 =>
        simp [discrIdiom, update_statement, updateSeq, updateSwitch, hdest,
          hproj, hvar, hty, hkind, hne]
      | none =>
        simp [discrIdiom, update_statement, updateSeq, updateSwitch, hdest,
          hproj, hvar, hty, hkind, hne]
    · intro h0
      cases st3opt with
      | some st3 =>
        simp [discrIdiom, update_statement, updateSeq, updateSwitch, hdest,
          hproj, hvar, hty, hkind, h0]
      | none =>
        simp [discrIdiom, update_statement, updateSeq, updateSwitch, hdest,
          hproj, hvar, hty, hkind, h0]
  · intro hty
    constructor
    · intro hne
      cases st3opt with
      | some st3 =>
        simp [discrIdiom, update_statement, updateSeq, updateSwitch, hdest,
          hproj, hvar, hty, hne]
      | none =>
        simp [discrIdiom, update_statement, updateSeq, updateSwitch, hdest,
          hproj, hvar, hty, hne]
    · intro h0
      cases st3opt with
      | some st3 =>
        simp [discrIdiom, update_statement, updateSeq, updateSwitch, hdest,
          hproj, hvar, hty, h0]
      | none =>
        simp [discrIdiom, update_statement, updateSeq, updateSwitch, hdest,
          hproj, hvar, hty, h0]

/-- A context whose type table holds a struct declaration. -/
def ctxStruct : TransCtx := ⟨[⟨0, .Struct []⟩], 0, []⟩

/-- Witness for C5: over a struct declaration the occurrence is nopped with
an error registered; over an error placeholder with a prior error it is
nopped without a new error. -/
theorem claim5_witness :
    (update_statement ctxStruct (discrIdiom meta0 meta1 metaS meta2 tPlace
      xPlace tPlace 0 IntegerTy.Isize [([.Isize 0], stmtL1)] stmtL3 none) =
      some (registerError ctxStruct, .mk meta0 .Nop)) ∧
    (update_statement ctxErr idiomErr = some (ctxErr, .mk meta0 .Nop)) :=
  ⟨(claim5_non_enum_scrutinee ctxStruct meta0 meta1 metaS meta2 tPlace xPlace
      tPlace 0 IntegerTy.Isize [([.Isize 0], stmtL1)] stmtL3 none rfl rfl
      rfl).1 ⟨0, .Struct []⟩ [] (by decide) rfl,
   ((claim5_non_enum_scrutinee ctxErr meta0 meta1 metaS meta2 tPlace xPlace
      tPlace 0 IntegerTy.Isize [([.Isize 0], stmtL1)] stmtL3 none rfl rfl
      rfl).2.2.1 ⟨0, .Error "extraction failed"⟩ "extraction failed"
      (by decide) rfl).1 (by decide)⟩

/-- Counterexample to C6: a discriminant assignment not followed by any
statement is not degraded to a no-op: the pass hits `unreachable!()` and
aborts (modelled as `none`). -/
theorem claim6_counterexample :
    visit ctxAB (.mk meta0 (.Assign tPlace (.Discriminant xPlace 7))) = none :=
  visit_none rfl

/-- C6 (amended): Locality of failures: the pass degrades the recoverable
malformed occurrences in place — a discriminant read whose successor is not
an integer switch is nopped whole with the shared error counter
incremented — and translation continues; but the pass is not total: it
aborts (panics) on a bare discriminant assignment not followed by any
statement, on a discriminant assignment with a projected destination, on a
switch operand that is not a by-move projection-free read of the
discriminant temporary, and on a missing scrutinee declaration when no
earlier error was recorded. -/
theorem claim6_failure_modes :
    (∀ (ctx : TransCtx) (m m1 : Meta) (dest x : Place) (adt : Nat)
      (st2 : Statement), dest.projection = [] → notSwitchSucc st2 = true →
      update_statement ctx (.mk m (.Sequence
        (.mk m1 (.Assign dest (.Discriminant x adt))) st2)) =
        some (registerError ctx, .mk m .Nop)) ∧
    (∀ (ctx : TransCtx) (m : Meta) (dest x : Place) (adt : Nat),
      visit ctx (.mk m (.Assign dest (.Discriminant x adt))) = none) ∧
    (∀ (ctx : TransCtx) (m m1 : Meta) (dest x : Place) (adt : Nat)
      (st2 : Statement), dest.projection ≠ [] →
      update_statement ctx (.mk m (.Sequence
        (.mk m1 (.Assign dest (.Discriminant x adt))) st2)) = none) ∧
    (∀ (ctx : TransCtx) (m m1 m2 : Meta) (dest x q : Place) (adt : Nat)
      (ity : IntegerTy) (targets : List (List ScalarValue × Statement))
      (oth : Statement), dest.projection = [] →
      update_statement ctx (.mk m (.Sequence
        (.mk m1 (.Assign dest (.Discriminant x adt)))
        (.mk m2 (.Switch (.SwitchInt (.Copy q) ity targets oth))))) = none) ∧
    (∀ (ctx : TransCtx) (m m1 m2 : Meta) (dest x op_p : Place) (adt : Nat)
      (ity : IntegerTy) (targets : List (List ScalarValue × Statement))
      (oth : Statement), dest.projection = [] →
      ¬(op_p.projection = [] ∧ op_p.var_id = dest.var_id) →
      update_statement ctx (.mk m (.Sequence
        (.mk m1 (.Assign dest (.Discriminant x adt)))
        (.mk m2 (.Switch (.SwitchInt (.Move op_p) ity targets oth))))) = none) ∧
    (∀ (ctx : TransCtx) (m m1 mS m2 : Meta) (dest x op_p : Place) (adt : Nat)
      (ity : IntegerTy) (targets : List (List ScalarValue × Statement))
      (oth : Statement) (st3opt : Option Statement), dest.projection = [] →
      op_p.projection = [] → op_p.var_id = dest.var_id →
      typeDeclsGet ctx adt = none → ctx.error_count = 0 →
      update_statement ctx (discrIdiom m m1 mS m2 dest x op_p adt ity targets
        oth st3opt) = none) := by
  refine ⟨update_wrong_succ, ?_, ?_, ?_, ?_, ?_⟩
  · intro ctx m dest x adt
    exact visit_none rfl
  · intro ctx m m1 dest x adt st2 hne
    simp [update_statement, hne]
  · intro ctx m m1 m2 dest x q adt ity targets oth hdest
    simp [update_statement, updateSeq, updateSwitch, hdest]
  · intro ctx m m1 m2 dest x op_p adt ity targets oth hdest hne
    simp [update_statement, updateSeq, updateSwitch, hdest, hne]
  · intro ctx m m1 mS m2 dest x op_p adt ity targets oth st3opt hdest hproj
      hvar hty h0
    cases st3opt with
    | some st3 =>
      simp [discrIdiom, update_statement, updateSeq, updateSwitch, hdest,
        hproj, hvar, hty, h0]
    | none =>
      simp [discrIdiom, update_statement, updateSeq, updateSwitch, hdest,
        hproj, hvar, hty, h0]

/-- Witness for C6: the wrong-successor occurrence is locally nopped with
an error while a projected-destination occurrence aborts. -/
theorem claim6_witness :
    (update_statement ctxAB (.mk meta0 (.Sequence
      (.mk meta1 (.Assign tPlace (.Discriminant xPlace 7)))
      (.mk metaS .Panic))) = some (registerError ctxAB, .mk meta0 .Nop)) ∧
    (update_statement ctxAB (.mk meta0 (.Sequence
      (.mk meta1 (.Assign ⟨0, [.DerefBox]⟩ (.Discriminant xPlace 7)))
      (.mk metaS .Panic))) = none) :=
  ⟨claim6_failure_modes.1 ctxAB meta0 meta1 tPlace xPlace 7 (.mk metaS .Panic)
    rfl (by decide),
   claim6_failure_modes.2.2.1 ctxAB meta0 meta1 ⟨0, [.DerefBox]⟩ xPlace 7
    (.mk metaS .Panic) (by decide)⟩

end Charon
